import Mathlib

/-!
# Verification of the flux-relay-cli interactive shell and client

This development shallowly embeds the core logic of the `flux-relay-cli`
repository:

* the interactive SQL shell's line accumulator and meta-command dispatcher
  (`cmd/shell.go`, `startShellWithContext` and `executeQuery`),
* the query-response decoder of the API client
  (`internal/api/client.go`, `ExecuteQuery`),
* the device-code token poller (`cmd/login.go`, `pollForToken`),
* the scatter-gather server listing (`runServerList`).

Strings are modelled with Lean `String` (a list of characters in this
toolchain); the Go `strings` helpers used by the shell are re-implemented
character-for-character below (ASCII behaviour, which is what all inputs of
the shell exercise).  I/O is modelled as a list of `Effect` values; the
remote API is an oracle (`Env`) supplying the responses the HTTP client
would return.
-/

namespace FluxRelay

/-! ## Go `strings` helpers (ASCII behaviour) -/

/-- The Go `unicode.IsSpace` test, restricted to the ASCII range
(space, tab, newline, vertical tab, form feed, carriage return). -/
def goIsSpace (c : Char) : Bool :=
  c = ' ' || c = '\t' || c = '\n' || c = Char.ofNat 11 || c = Char.ofNat 12 || c = '\r'

/-- Drop whitespace from both ends of a character list
(Go `strings.TrimSpace` on the underlying runes). -/
def trimList (l : List Char) : List Char :=
  ((l.dropWhile goIsSpace).reverse.dropWhile goIsSpace).reverse

/-- Go `strings.TrimSpace`. -/
def goTrimSpace (s : String) : String :=
  ⟨trimList s.data⟩

/-- Go `strings.ToLower` (ASCII). -/
def goToLower (s : String) : String :=
  ⟨s.data.map Char.toLower⟩

/-- Go `strings.ToUpper` (ASCII). -/
def goToUpper (s : String) : String :=
  ⟨s.data.map Char.toUpper⟩

/-- Go `strings.HasPrefix`. -/
def goStartsWith (s t : String) : Bool :=
  t.data.isPrefixOf s.data

/-- Go `strings.HasSuffix`. -/
def goEndsWith (s t : String) : Bool :=
  t.data.reverse.isPrefixOf s.data.reverse

/-- Is `t` a contiguous sublist of `s`? (helper for `goContains`). -/
def listInfix (t : List Char) : List Char → Bool
  | [] => t.isEmpty
  | c :: rest => t.isPrefixOf (c :: rest) || listInfix t rest

/-- Go `strings.Contains`. -/
def goContains (s t : String) : Bool :=
  listInfix t.data s.data

/-- Helper for `goFields`: split a character list at whitespace,
accumulating the current (reversed) word. -/
def goFieldsAux : List Char → List Char → List String
  | [], acc => if acc.isEmpty then [] else [⟨acc.reverse⟩]
  | c :: rest, acc =>
      if goIsSpace c then
        if acc.isEmpty then goFieldsAux rest []
        else (⟨acc.reverse⟩ : String) :: goFieldsAux rest []
      else goFieldsAux rest (c :: acc)

/-- Go `strings.Fields`: whitespace-separated words, no empties. -/
def goFields (s : String) : List String :=
  goFieldsAux s.data []

/-- Go `strings.TrimRight(s, " \t")`. -/
def goTrimRightST (s : String) : String :=
  ⟨(s.data.reverse.dropWhile (fun c => c = ' ' || c = '\t')).reverse⟩

/-- Go `strings.TrimSuffix(s, ";")`: drop one trailing semicolon if present. -/
def trimSuffixSemi (s : String) : String :=
  if goEndsWith s ";" then ⟨s.data.dropLast⟩ else s

/-- Drop the first `n` characters of a string (Go `s[n:]` for ASCII prefixes). -/
def strDrop (n : Nat) (s : String) : String :=
  ⟨s.data.drop n⟩

/-- The double-quote character. -/
def dqChar : Char := Char.ofNat 34

/-- The single-quote character. -/
def sqChar : Char := Char.ofNat 39

/-- A one-character string holding `c`. -/
def strOf (c : Char) : String := ⟨[c]⟩

/-- shell.go lines 752-757: if the query is at least two characters long and
its first and last characters are both `"` or both `'`, remove them. -/
def stripQuotes (q : String) : String :=
  if 2 ≤ q.data.length &&
      ((q.data.headD ' ' = dqChar && q.data.getLastD ' ' = dqChar) ||
       (q.data.headD ' ' = sqChar && q.data.getLastD ' ' = sqChar))
  then ⟨(q.data.drop 1).dropLast⟩ else q

/-! ### The `LIMIT\s+(\d+)` regular expression of shell.go line 763 -/

/-- A character matched by the regexp class `\s`. -/
def isRegexSpace (c : Char) : Bool :=
  c = ' ' || c = '\t' || c = '\n' || c = Char.ofNat 11 || c = Char.ofNat 12 || c = '\r'

/-- After `LIMIT` and one whitespace character: skip further whitespace and
require a digit. -/
def wsThenDigit : List Char → Bool
  | [] => false
  | c :: rest => if isRegexSpace c then wsThenDigit rest else c.isDigit

/-- Does the list start with `LIMIT`, at least one whitespace character and a
digit? -/
def startsLimitNum (l : List Char) : Bool :=
  match l with
  | 'L' :: 'I' :: 'M' :: 'I' :: 'T' :: c :: rest =>
      isRegexSpace c && wsThenDigit (c :: rest)
  | _ => false

/-- Scan for a match of `LIMIT\s+(\d+)` anywhere in the list
(Go `regexp.MatchString`). -/
def containsLimitNum : List Char → Bool
  | [] => false
  | c :: rest => startsLimitNum (c :: rest) || containsLimitNum rest

/-- Go `limitPattern.MatchString(queryUpperCheck)`. -/
def limitNumMatch (s : String) : Bool :=
  containsLimitNum s.data

/-- shell.go lines 760-769: the local completeness check applied to the
normalized statement before dispatch.  The statement is rejected when its
upper-cased form contains `" LIMIT"`, the regexp `LIMIT\s+(\d+)` does not
match, and the trimmed upper-cased form ends in `LIMIT`. -/
def hasDanglingLimit (q : String) : Bool :=
  let u := goToUpper q
  goContains u " LIMIT" && !limitNumMatch u && goEndsWith (goTrimSpace u) "LIMIT"

/-! ## Data model of the interactive shell (cmd/shell.go) -/

/-- Go struct api.Database (internal/api/client.go): a nameserver record as returned
by `ListDatabases` (only the fields the shell reads). -/
structure Database where
  id : String
  databaseName : String
  isActive : Bool
  deriving Repr, DecidableEq

/-- The remote API as an oracle: what `ctx.client.ListDatabases` would
return when the shell calls it. -/
structure Env where
  listDatabases : Except String (List Database)

/-- Go struct shellContext plus the pending query buffer `currentQuery`
(cmd/shell.go lines 132-141 and 201). -/
structure ShellState where
  buffer : String
  serverID : String
  serverName : String
  nameserverID : String
  nameserverName : String
  deriving Repr, DecidableEq

/-- Observable effects of one shell step: API calls and the printed
messages the claims talk about.  `info` stands for the static prints that
carry no state. -/
inductive Effect where
  | execQuery (q : String)
  | apiListDatabases
  | apiCreateNs (name : String)
  | apiInitNs (id : String)
  | apiErrorMsg (e : String)
  | goodbye
  | info (tag : String)
  | unknownCmd (line : String)
  | limitWarn
  | limitReject (q : String)
  | sqlNote
  | useSwitched (id name : String)
  | useNotFound (name : String)
  deriving Repr, DecidableEq

/-- Effects that are calls to the remote API (`executeQuery` issues the SQL
execution request; the list/create/initialize effects are the other client
calls). -/
def Effect.isApiCall : Effect → Bool
  | .execQuery _ => true
  | .apiListDatabases => true
  | .apiCreateNs _ => true
  | .apiInitNs _ => true
  | _ => false

/-- Extract the queries sent to the SQL execution endpoint. -/
def execsOf (l : List Effect) : List String :=
  l.filterMap fun e => match e with
    | .execQuery q => some q
    | _ => none

/-- The fixed introspection query issued by `.tables` (shell.go line 312). -/
def tablesQuery : String :=
  "SELECT name FROM sqlite_master WHERE type=" ++ strOf sqChar ++ "table" ++ strOf sqChar ++
  " AND name NOT LIKE " ++ strOf sqChar ++ "sqlite_%" ++ strOf sqChar ++ " ORDER BY name"

/-- The introspection query issued by `.schema <table>` (shell.go line 597). -/
def schemaQuery (tableName : String) : String :=
  "SELECT sql FROM sqlite_master WHERE type=" ++ strOf sqChar ++ "table" ++ strOf sqChar ++
  " AND name = " ++ strOf sqChar ++ tableName ++ strOf sqChar

/-- Handler for `.use` (shell.go lines 376-410).  `cmd` is the lower-cased
trimmed command line; the argument is `strings.Fields(cmd)[1]`.  The lookup
compares the stored name and ID against that argument with `==`. -/
def handleUse (env : Env) (st : ShellState) (cmd : String) :
    ShellState × List Effect × Bool :=
  let parts := goFields cmd
  if 1 < parts.length then
    let nameserverName := parts.getD 1 ""
    match env.listDatabases with
    | .error e => (st, [Effect.apiListDatabases, Effect.apiErrorMsg e], false)
    | .ok dbs =>
        match dbs.find? (fun db =>
            db.databaseName == nameserverName || db.id == nameserverName) with
        | none => (st, [Effect.apiListDatabases, Effect.useNotFound nameserverName], false)
        | some db =>
            ({st with nameserverID := db.id, nameserverName := db.databaseName},
             [Effect.apiListDatabases, Effect.useSwitched db.id db.databaseName], false)
  else (st, [Effect.info "useStatus"], false)

/-- Handler for `.create_ns` (shell.go lines 411-516): a pre-flight list, then
the create call.  It never mutates the shell context. -/
def handleCreateNs (_env : Env) (st : ShellState) (cmd : String) :
    ShellState × List Effect × Bool :=
  let parts := goFields cmd
  if 1 < parts.length then
    let name := String.intercalate " " (parts.drop 1)
    (st, [Effect.apiListDatabases, Effect.apiCreateNs name], false)
  else (st, [Effect.info "createNsUsage"], false)

/-- Handler for `.init_ns` (shell.go lines 517-591): resolve the nameserver,
then call initialize.  It never mutates the shell context. -/
def handleInitNs (env : Env) (st : ShellState) (cmd : String) :
    ShellState × List Effect × Bool :=
  let parts := goFields cmd
  if 1 < parts.length then
    let ident := String.intercalate " " (parts.drop 1)
    match env.listDatabases with
    | .error e => (st, [Effect.apiListDatabases, Effect.apiErrorMsg e], false)
    | .ok dbs =>
        match dbs.find? (fun db => db.databaseName == ident || db.id == ident) with
        | none => (st, [Effect.apiListDatabases, Effect.info "nsNotFound"], false)
        | some db => (st, [Effect.apiListDatabases, Effect.apiInitNs db.id], false)
  else if st.nameserverID ≠ "" then (st, [Effect.apiInitNs st.nameserverID], false)
  else (st, [Effect.info "initUsage"], false)

/-- Handler for `.schema` (shell.go lines 592-600). -/
def handleSchema (st : ShellState) (cmd : String) :
    ShellState × List Effect × Bool :=
  let parts := goFields cmd
  if 1 < parts.length then
    (st, [Effect.execQuery (schemaQuery (parts.getD 1 ""))], false)
  else (st, [Effect.info "schemaUsage"], false)

/-- Handler for `.drop_table` (shell.go lines 642-659): with an argument it
executes `DROP TABLE <name>` directly. -/
def handleDrop (st : ShellState) (cmd : String) :
    ShellState × List Effect × Bool :=
  let parts := goFields cmd
  if 1 < parts.length then
    (st, [Effect.execQuery ("DROP TABLE " ++ parts.getD 1 "")], false)
  else (st, [Effect.info "dropUsage"], false)

/-- The body of the meta-command switch (shell.go lines 262-717), in source
order, over the already lower-cased command `cmd`.  Returns the new state,
the effects, and whether the shell loop returns (only the
`.quit`/`.exit`/`.q` case does). -/
def dotSwitch (env : Env) (st : ShellState) (line cmd : String) :
    ShellState × List Effect × Bool :=
  if cmd = ".quit" || cmd = ".exit" || cmd = ".q" then (st, [Effect.goodbye], true)
  else if cmd = ".help" || cmd = ".h" then (st, [Effect.info "help"], false)
  else if cmd = ".examples" || cmd = ".ex" then (st, [Effect.info "examples"], false)
  else if cmd = ".clear" || cmd = ".c" then ({st with buffer := ""}, [Effect.info "cleared"], false)
  else if cmd = ".context" || cmd = ".ctx" then (st, [Effect.info "context"], false)
  else if cmd = ".tables" then
    (st, [Effect.apiListDatabases, Effect.execQuery tablesQuery], false)
  else if cmd = ".nameservers" || cmd = ".ns" then
    (st, [Effect.apiListDatabases, Effect.info "nameservers"], false)
  else if goStartsWith cmd ".use" then handleUse env st cmd
  else if goStartsWith cmd ".create_ns" || goStartsWith cmd ".create_nameserver" then
    handleCreateNs env st cmd
  else if goStartsWith cmd ".init_ns" || goStartsWith cmd ".init_nameserver" ||
      goStartsWith cmd ".initialize" then handleInitNs env st cmd
  else if goStartsWith cmd ".schema" then handleSchema st cmd
  else if goStartsWith cmd ".create_table" || goStartsWith cmd ".create" then
    (st, [Effect.info "createTableHelp"], false)
  else if goStartsWith cmd ".drop_table" || goStartsWith cmd ".drop" then handleDrop st cmd
  else if goStartsWith cmd ".alter_table" || goStartsWith cmd ".alter" then
    (st, [Effect.info "alterHelp"], false)
  else (st, [Effect.unknownCmd line], false)

/-- shell.go line 262: the meta-command line is trimmed and lower-cased,
then dispatched through the switch. -/
def dotDispatch (env : Env) (st : ShellState) (line : String) :
    ShellState × List Effect × Bool :=
  dotSwitch env st line (goToLower (goTrimSpace line))

/-- Append a line to the pending query buffer (shell.go lines 722-726):
a space is written first iff the buffer is non-empty. -/
def joinBuf (buf line : String) : String :=
  if buf = "" then line else buf ++ " " ++ line

/-- The `sql ` prefix strip (shell.go lines 253-258). -/
def afterSqlStrip (line : String) : String :=
  if goStartsWith (goToLower line) "sql " then goTrimSpace (strDrop 4 line) else line

/-- Effects of the `sql ` prefix strip: a hint line is printed. -/
def sqlNoteEff (line : String) : List Effect :=
  if goStartsWith (goToLower line) "sql " then [Effect.sqlNote] else []

/-- shell.go lines 728-740: the mid-accumulation incomplete-`LIMIT`
warning.  Note that `querySoFar` re-appends `line` to the already-updated
buffer, duplicating the last line. -/
def warnCond (buf2 line : String) : Bool :=
  let queryUpper := goToUpper (goTrimSpace (buf2 ++ " " ++ line))
  goContains queryUpper " LIMIT" && !goContains queryUpper " LIMIT " &&
  !goEndsWith queryUpper " LIMIT" && goEndsWith (goTrimSpace queryUpper) "LIMIT"

/-- shell.go lines 746-757: the statement normalization of the semicolon
path: trim, strip one trailing semicolon, trim, strip one layer of
wrapping quotes. -/
def dispatchQuery (buf : String) : String :=
  stripQuotes (goTrimSpace (trimSuffixSemi (goTrimSpace buf)))

/-- One iteration of the read loop on a scanned line
(shell.go lines 238-777). -/
def processLine (env : Env) (st : ShellState) (raw : String) :
    ShellState × List Effect × Bool :=
  let line := goTrimSpace raw
  if line = "" then
    if st.buffer ≠ "" then
      let q := goTrimSpace st.buffer
      ({st with buffer := ""}, if q ≠ "" then [Effect.execQuery q] else [], false)
    else (st, [], false)
  else
    let line2 := afterSqlStrip line
    let note := sqlNoteEff line
    if goStartsWith line2 "." then
      let d := dotDispatch env st line2
      if d.2.2 then (d.1, note ++ d.2.1, true)
      else ({d.1 with buffer := ""}, note ++ d.2.1, false)
    else
      let buf2 := joinBuf st.buffer line2
      if warnCond buf2 line2 then ({st with buffer := buf2}, note ++ [Effect.limitWarn], false)
      else if goEndsWith (goTrimRightST line2) ";" then
        let q := dispatchQuery buf2
        if hasDanglingLimit q then
          ({st with buffer := ""}, note ++ [Effect.limitReject q], false)
        else if q ≠ "" then ({st with buffer := ""}, note ++ [Effect.execQuery q], false)
        else ({st with buffer := ""}, note, false)
      else ({st with buffer := buf2}, note, false)

/-- Inputs to the shell: a scanned line, or a delivery of the interrupt
signal handled by the SIGINT goroutine (shell.go lines 208-224). -/
inductive InEvent where
  | line (raw : String)
  | interrupt
  deriving Repr, DecidableEq

/-- Process one input event.  The interrupt handler only clears a pending
buffer and prints a notice; it never ends the loop. -/
def processEvent (env : Env) (st : ShellState) : InEvent → ShellState × List Effect × Bool
  | .interrupt =>
      if st.buffer ≠ "" then ({st with buffer := ""}, [Effect.info "queryCancelled"], false)
      else (st, [Effect.info "useQuitToExit"], false)
  | .line raw => processLine env st raw

/-- Run the read loop over a stream of input events.  The boolean reports
whether the loop returned through the `.quit` branch; `false` means the
input stream was exhausted (EOF on stdin). -/
def runEvents (env : Env) (st : ShellState) : List InEvent → ShellState × List Effect × Bool
  | [] => (st, [], false)
  | e :: es =>
      let r := processEvent env st e
      if r.2.2 then (r.1, r.2.1, true)
      else
        let r2 := runEvents env r.1 es
        (r2.1, r.2.1 ++ r2.2.1, r2.2.2)

/-- The space-joined concatenation of a sequence of lines (spec §8). -/
def spaceJoin : List String → String
  | [] => ""
  | [l] => l
  | l :: ls => l ++ " " ++ spaceJoin ls

/-- Does this raw input line terminate the read loop?  Derived from the
line pipeline of shell.go lines 238-266: trim, strip a `sql ` prefix,
lower-case, and compare against the three quit commands. -/
def isQuitLine (raw : String) : Bool :=
  let line := goTrimSpace raw
  if line = "" then false
  else
    let line2 := afterSqlStrip line
    if goStartsWith line2 "." then
      let cmd := goToLower (goTrimSpace line2)
      cmd = ".quit" || cmd = ".exit" || cmd = ".q"
    else false

/-- Does this event terminate the read loop? -/
def isQuitEvent : InEvent → Bool
  | .line raw => isQuitLine raw
  | .interrupt => false

/-- The exact-match and prefix-match arms of the meta-command switch: a
dot-line whose lower-cased form fails all of these falls through to the
`default` arm (shell.go lines 714-716). -/
def knownDotCmd (cmd : String) : Bool :=
  cmd = ".quit" || cmd = ".exit" || cmd = ".q" ||
  cmd = ".help" || cmd = ".h" || cmd = ".examples" || cmd = ".ex" ||
  cmd = ".clear" || cmd = ".c" || cmd = ".context" || cmd = ".ctx" ||
  cmd = ".tables" || cmd = ".nameservers" || cmd = ".ns" ||
  goStartsWith cmd ".use" || goStartsWith cmd ".create_ns" ||
  goStartsWith cmd ".create_nameserver" || goStartsWith cmd ".init_ns" ||
  goStartsWith cmd ".init_nameserver" || goStartsWith cmd ".initialize" ||
  goStartsWith cmd ".schema" || goStartsWith cmd ".create_table" ||
  goStartsWith cmd ".create" || goStartsWith cmd ".drop_table" ||
  goStartsWith cmd ".drop" || goStartsWith cmd ".alter_table" ||
  goStartsWith cmd ".alter"

/-- An input line as the accumulator sees one: non-empty, already in
trimmed form, not a meta-command, not `sql `-prefixed and not
semicolon-terminated. -/
def goodLine (s : String) : Prop :=
  s ≠ "" ∧ goTrimSpace s = s ∧ goStartsWith (goToLower s) "sql " = false ∧
  goStartsWith s "." = false ∧ goEndsWith s ";" = false

instance (s : String) : Decidable (goodLine s) := by
  unfold goodLine; infer_instance

/-- A concrete environment for witnesses: the API returns an empty
nameserver list. -/
def env0 : Env := ⟨.ok []⟩

/-- A concrete idle shell state for witnesses. -/
def st0 : ShellState :=
  { buffer := "", serverID := "srv1", serverName := "main",
    nameserverID := "", nameserverName := "" }

/-! ## The query-response decoder (internal/api/client.go, ExecuteQuery)

JSON values as Go's `encoding/json` produces them from a response body.
JSON numbers decode to Go `float64`; every number the decoder inspects is
converted with `int(...)`, and the claims only involve integral values, so
numbers are modelled as `Int`. -/

inductive JVal where
  | jnull
  | jbool (b : Bool)
  | jnum (n : Int)
  | jstr (s : String)
  | jarr (xs : List JVal)
  | jobj (fields : List (String × JVal))

/-- Go struct api.QueryResponse (client.go lines 382-389). -/
structure QueryResponse where
  Columns : List String
  Rows : List (List JVal)
  RowsAffected : Int
  ExecutionTime : Int
  Success : Bool
  ErrorMessage : String

/-- Look up a key in a decoded JSON object. -/
def jlookup (fields : List (String × JVal)) (k : String) : Option JVal :=
  (fields.find? (fun p => p.1 == k)).map Prod.snd

/-- client.go lines 441-510: turn a decoded HTTP-200 response body into a
`QueryResponse`.  A body that is not a JSON object fails `json.Unmarshal`
into `map[string]interface{}`.  The `result` envelope is unwrapped when
present; each field is extracted by a type assertion that falls back to the
zero value; `success` defaults to `true`; a string `errorMessage` forces
`Success = false`; and when both columns and rows come out empty, `Success`
is overridden to `true` (lines 505-508). -/
def decodeQueryResponse (body : JVal) : Except String QueryResponse :=
  match body with
  | .jobj fields =>
      let responseData :=
        match jlookup fields "result" with
        | some (.jobj f) => f
        | _ => fields
      let cols : List String :=
        match jlookup responseData "columns" with
        | some (.jarr cs) => cs.map fun c => match c with | .jstr s => s | _ => ""
        | _ => []
      let rows : List (List JVal) :=
        match jlookup responseData "rows" with
        | some (.jarr rs) => rs.map fun r => match r with | .jarr xs => xs | _ => []
        | _ => []
      let et : Int :=
        match jlookup responseData "executionTime" with
        | some (.jnum n) => n
        | _ => 0
      let ra : Int :=
        match jlookup responseData "rowsAffected" with
        | some (.jnum n) => n
        | _ => 0
      let suc : Bool :=
        match jlookup responseData "success" with
        | some (.jbool b) => b
        | _ => true
      let (suc2, errMsg) :=
        match jlookup responseData "errorMessage" with
        | some (.jstr s) => (false, s)
        | _ => (suc, "")
      let suc3 := if cols.isEmpty && rows.isEmpty then true else suc2
      .ok { Columns := cols, Rows := rows, RowsAffected := ra,
            ExecutionTime := et, Success := suc3, ErrorMessage := errMsg }
  | _ => .error "json: cannot unmarshal into map"

/-! ## Result rendering (cmd/shell.go, executeQuery lines 821-889) -/

mutual

/-- A minimal JSON encoder for non-string cell values
(shell.go line 874, `json.Marshal`). -/
def jsonEncode : JVal → String
  | .jnull => "null"
  | .jbool true => "true"
  | .jbool false => "false"
  | .jnum n => toString n
  | .jstr s => strOf dqChar ++ s ++ strOf dqChar
  | .jarr xs => "[" ++ String.intercalate "," (jsonEncodeList xs) ++ "]"
  | .jobj fs => "\x7b" ++ String.intercalate "," (jsonEncodeFields fs) ++ "\x7d"

/-- Encode the elements of a JSON array. -/
def jsonEncodeList : List JVal → List String
  | [] => []
  | x :: xs => jsonEncode x :: jsonEncodeList xs

/-- Encode the fields of a JSON object. -/
def jsonEncodeFields : List (String × JVal) → List String
  | [] => []
  | (k, v) :: fs =>
      (strOf dqChar ++ k ++ strOf dqChar ++ ":" ++ jsonEncode v) :: jsonEncodeFields fs

end

/-- Render one cell (shell.go lines 866-877): JSON null prints `NULL`,
strings print verbatim, anything else is JSON-encoded. -/
def cellString : JVal → String
  | .jnull => "NULL"
  | .jstr s => s
  | v => jsonEncode v

/-- The lines `executeQuery` prints for a decoded response. -/
inductive ROut where
  | errorLine (msg : String)
  | emptyResultNote
  | noRowsNote
  | tableOut (headers : List String) (rows : List (List String))
  | rowsReturned (n : Nat) (time : Int)
  | execSuccess (time : Int)
  | rowsAffected (n : Int)
  deriving Repr, DecidableEq

/-- shell.go lines 821-889: the response handling after a successful HTTP
exchange.  Error cases first, then a table for one or more columns, else
the mutation report. -/
def renderResult (r : QueryResponse) : List ROut :=
  if !r.Success && r.ErrorMessage != "" then [ROut.errorLine r.ErrorMessage]
  else if !r.Success && r.ErrorMessage == "" && r.Columns.isEmpty && r.Rows.isEmpty then
    [ROut.emptyResultNote]
  else if !r.Columns.isEmpty then
    if r.Rows.isEmpty then [ROut.noRowsNote]
    else [ROut.tableOut r.Columns (r.Rows.map (·.map cellString)),
          ROut.rowsReturned r.Rows.length r.ExecutionTime]
  else [ROut.execSuccess r.ExecutionTime, ROut.rowsAffected r.RowsAffected]

/-- Is a rendered line an error report? -/
def ROut.isErrorLine : ROut → Bool
  | .errorLine _ => true
  | _ => false

/-! ## The device-code token poller (cmd/login.go, pollForToken) -/

/-- What one `client.GetToken` call can produce. -/
inductive PollOutcome where
  | token (t : String)
  | apiErr (code : String)
  | netErr
  deriving Repr, DecidableEq

/-- How `pollForToken` ends. -/
inductive PollResult where
  | token (t : String)
  | denied
  | invalidCode
  | expired
  | timeout
  deriving Repr, DecidableEq

/-- login.go lines 318-371: the handling of one poll attempt, given the
1-based attempt counter `n` (`pollCount` after its increment).  `none`
means the loop continues. -/
def pollStep (n : Nat) (o : PollOutcome) : Option PollResult :=
  match o with
  | .token t => some (.token t)
  | .apiErr c =>
      if c = "authorization_pending" then none
      else if c = "access_denied" then some .denied
      else if c = "Invalid device code" || c = "invalid_device_code" then
        if n ≤ 3 then none else some .invalidCode
      else if c = "Device code expired" || c = "device_code_expired" then some .expired
      else none
  | .netErr => none

/-- The polling loop with the remaining attempt budget as fuel.  `count`
is the number of requests already issued; the result carries the total
number of requests made. -/
def pollLoop (outcomes : Nat → PollOutcome) : Nat → Nat → PollResult × Nat
  | 0, count => (.timeout, count)
  | fuel + 1, count =>
      let n := count + 1
      match pollStep n (outcomes count) with
      | some r => (r, n)
      | none => pollLoop outcomes fuel n

/-- login.go lines 270-376: poll for a token, at most `maxPolls = 120`
attempts; when the budget is exhausted a timeout error is returned. -/
def pollForToken (outcomes : Nat → PollOutcome) : PollResult × Nat :=
  pollLoop outcomes 120 0

/-! ## Scatter-gather server listing (runServerList) -/

/-- Go struct api.Server (the fields the listing renders). -/
structure Server where
  id : String
  name : String
  description : String
  createdAt : String
  isActive : Bool
  deriving Repr, DecidableEq, Inhabited

/-- Go struct serverWithCount (runServerList): a server and its fetched
nameserver count. -/
structure ServerWithCount where
  server : Server
  nameserverCount : Nat
  deriving Repr, DecidableEq, Inhabited

/-- The body of the goroutine for index `idx` (runServerList): fetch the
server's database list and count the active ones, or default to 0 on
error.  This is the value written into `serversWithCounts[idx]`. -/
def slotValue (servers : List Server) (fetch : Nat → Except String (List Database))
    (i : Nat) : ServerWithCount :=
  { server := servers.getD i default
    nameserverCount :=
      match fetch i with
      | .error _ => 0
      | .ok dbs => (dbs.filter (·.isActive)).length }

/-- The fetch tasks spawned by the listing: one per server index. -/
def spawnedFetches (servers : List Server) : List Nat :=
  List.range servers.length

/-- Execute the scatter-gather with the goroutines completing in the order
`order` (a permutation of the indices): each completion writes its own
slot of the result list, which starts as `make([]serverWithCount, N)`.
`wg.Wait()` corresponds to folding over the whole order before the result
is read. -/
def gatherResult (servers : List Server) (fetch : Nat → Except String (List Database))
    (order : List Nat) : List ServerWithCount :=
  order.foldl (fun acc i => acc.set i (slotValue servers fetch i))
    (List.replicate servers.length default)

/-- One rendered table row (the tab-separated fields of runServerList's
output loop). -/
def renderServerRow (item : ServerWithCount) : List String :=
  [item.server.id, item.server.name, item.server.description,
   toString item.nameserverCount, item.server.createdAt,
   if item.server.isActive then "Active" else "Inactive"]

/-- The rendered table body: one row per entry of `serversWithCounts`, in
slice order. -/
def renderServerTable (items : List ServerWithCount) : List (List String) :=
  items.map renderServerRow

/-! # Lemma toolkit -/

/-! ## Characters and trimming -/

theorem dropWhile_cons_of_neg {p : Char → Bool} {c : Char} {l : List Char}
    (h : p c = false) : List.dropWhile p (c :: l) = c :: l := by
  simp [List.dropWhile_cons, h]

theorem string_eq_empty_iff {s : String} : s = "" ↔ s.data = [] := by
  rw [String.ext_iff]

theorem trimList_eq_self_of_edges {l : List Char}
    (h1 : ∀ c ∈ l.head?, goIsSpace c = false)
    (h2 : ∀ c ∈ l.getLast?, goIsSpace c = false) :
    trimList l = l := by
  cases l with
  | nil => rfl
  | cons c t =>
      have hc : goIsSpace c = false := h1 c rfl
      unfold trimList
      rw [dropWhile_cons_of_neg hc]
      cases hlast : (c :: t).getLast? with
      | none => exact absurd hlast (by simp [List.getLast?_eq_none_iff])
      | some d =>
          have hd : goIsSpace d = false := h2 d (by rw [hlast]; rfl)
          have hrev : (c :: t).reverse.head? = some d := by
            rw [List.head?_reverse]; exact hlast
          obtain ⟨ys, hys⟩ := List.head?_eq_some_iff.mp hrev
          rw [hys, dropWhile_cons_of_neg hd, ← hys, List.reverse_reverse]

theorem length_dropWhile_le (p : Char → Bool) (l : List Char) :
    (List.dropWhile p l).length ≤ l.length :=
  (List.dropWhile_sublist p).length_le

theorem dropWhile_eq_self_head {p : Char → Bool} {l : List Char}
    (h : List.dropWhile p l = l) : ∀ c ∈ l.head?, p c = false := by
  intro c hc
  cases l with
  | nil => simp at hc
  | cons a t =>
      have hac : a = c := by simpa using hc
      subst hac
      cases hpc : p a with
      | false => rfl
      | true =>
          rw [List.dropWhile_cons, if_pos hpc] at h
          have h1 := length_dropWhile_le p t
          have h2 := congrArg List.length h
          simp at h2
          omega

theorem edges_of_trimList_eq_self {l : List Char} (h : trimList l = l) :
    (∀ c ∈ l.head?, goIsSpace c = false) ∧ (∀ c ∈ l.getLast?, goIsSpace c = false) := by
  have hsuf : List.dropWhile goIsSpace l <:+ l := List.dropWhile_suffix _
  have hlen1 : (trimList l).length ≤ (List.dropWhile goIsSpace l).length := by
    unfold trimList
    rw [List.length_reverse]
    calc (List.dropWhile goIsSpace (List.dropWhile goIsSpace l).reverse).length
        ≤ (List.dropWhile goIsSpace l).reverse.length := length_dropWhile_le _ _
      _ = (List.dropWhile goIsSpace l).length := List.length_reverse _
  have hlen2 : (List.dropWhile goIsSpace l).length ≤ l.length := length_dropWhile_le _ _
  have hlen0 : (trimList l).length = l.length := by rw [h]
  have hdeq : List.dropWhile goIsSpace l = l :=
    hsuf.eq_of_length (by omega)
  refine ⟨dropWhile_eq_self_head hdeq, ?_⟩
  have hrev : List.dropWhile goIsSpace l.reverse = l.reverse := by
    have : trimList l = (List.dropWhile goIsSpace l.reverse).reverse := by
      unfold trimList; rw [hdeq]
    rw [h] at this
    have := congrArg List.reverse this
    rw [List.reverse_reverse] at this
    exact this.symm
  intro c hc
  exact dropWhile_eq_self_head hrev c (by rw [List.head?_reverse]; exact hc)

theorem goTrimSpace_eq_self_iff {s : String} :
    goTrimSpace s = s ↔ trimList s.data = s.data := by
  rw [String.ext_iff]; rfl

theorem getLast?_trimList {l : List Char} {c : Char}
    (hc : goIsSpace c = false) (h : l.getLast? = some c) :
    trimList l = List.dropWhile goIsSpace l ∧ (trimList l).getLast? = some c := by
  have hne : List.dropWhile goIsSpace l ≠ [] := by
    intro hnil
    have hall := List.dropWhile_eq_nil_iff.mp hnil
    obtain ⟨ys, hys⟩ := List.getLast?_eq_some_iff.mp h
    have : c ∈ l := by rw [hys]; simp
    rw [hall c this] at hc; exact Bool.true_eq_false.mp hc
  obtain ⟨pre, hpre⟩ := List.dropWhile_suffix (l := l) goIsSpace
  have hlast : (List.dropWhile goIsSpace l).getLast? = some c := by
    have h2 : (pre ++ List.dropWhile goIsSpace l).getLast? =
        (List.dropWhile goIsSpace l).getLast? :=
      List.getLast?_append_of_ne_nil pre hne
    rw [hpre] at h2
    rw [← h2, h]
  have hrevhead : (List.dropWhile goIsSpace l).reverse.head? = some c := by
    rw [List.head?_reverse]; exact hlast
  obtain ⟨ys, hys⟩ := List.head?_eq_some_iff.mp hrevhead
  have htl : trimList l = List.dropWhile goIsSpace l := by
    unfold trimList
    rw [hys, dropWhile_cons_of_neg hc, ← hys, List.reverse_reverse]
  exact ⟨htl, htl ▸ hlast⟩

/-! ## Prefixes, suffixes and single-character tests -/

theorem goStartsWith_head_char {s t : String} {c d : Char}
    (hs : s.data.head? = some c) (ht : t.data.head? = some d) (hne : (d == c) = false) :
    goStartsWith s t = false := by
  obtain ⟨ss, hss⟩ := List.head?_eq_some_iff.mp hs
  obtain ⟨ts, hts⟩ := List.head?_eq_some_iff.mp ht
  unfold goStartsWith
  rw [hss, hts, List.isPrefixOf_cons₂, hne, Bool.false_and]

theorem goEndsWith_last_char {s t : String} {c d : Char}
    (hs : s.data.getLast? = some c) (ht : t.data.getLast? = some d) (hne : (d == c) = false) :
    goEndsWith s t = false := by
  have hs' : s.data.reverse.head? = some c := by rw [List.head?_reverse]; exact hs
  have ht' : t.data.reverse.head? = some d := by rw [List.head?_reverse]; exact ht
  obtain ⟨ss, hss⟩ := List.head?_eq_some_iff.mp hs'
  obtain ⟨ts, hts⟩ := List.head?_eq_some_iff.mp ht'
  unfold goEndsWith
  rw [hss, hts, List.isPrefixOf_cons₂, hne, Bool.false_and]

theorem goEndsWith_semi_iff {s : String} :
    goEndsWith s ";" = true ↔ s.data.getLast? = some ';' := by
  unfold goEndsWith
  cases hrev : s.data.reverse with
  | nil =>
      have hlast : s.data.getLast? = none := by rw [← List.head?_reverse, hrev]; rfl
      rw [hlast]
      decide
  | cons a t =>
      have hlast : s.data.getLast? = some a := by rw [← List.head?_reverse, hrev]; rfl
      have : (";" : String).data.reverse = [';'] := rfl
      rw [this, hlast, List.isPrefixOf_cons₂]
      constructor
      · intro hand
        have := (Bool.and_eq_true _ _).mp hand
        have ha : (';' == a) = true := this.1
        rw [show a = ';' from (beq_iff_eq.mp ha).symm]
      · intro hsome
        injection hsome with ha
        rw [← ha]
        simp [List.isPrefixOf_nil_left]

theorem goTrimRightST_eq_self {s : String} {c : Char}
    (h : s.data.getLast? = some c) (hc : (c = ' ' || c = '\t') = false) :
    goTrimRightST s = s := by
  have hrev : s.data.reverse.head? = some c := by rw [List.head?_reverse]; exact h
  obtain ⟨ys, hys⟩ := List.head?_eq_some_iff.mp hrev
  apply String.ext
  show (s.data.reverse.dropWhile _).reverse = s.data
  rw [hys, dropWhile_cons_of_neg hc, ← hys, List.reverse_reverse]

theorem goTrimSpace_data (s : String) : (goTrimSpace s).data = trimList s.data := rfl

theorem goToUpper_data (s : String) : (goToUpper s).data = s.data.map Char.toUpper := rfl

theorem goToLower_data (s : String) : (goToLower s).data = s.data.map Char.toLower := rfl

/-! ## Edges of joined lines -/

theorem goodLine_edges {s : String} (h : goodLine s) :
    s.data ≠ [] ∧ (∀ c ∈ s.data.head?, goIsSpace c = false) ∧
    (∀ c ∈ s.data.getLast?, goIsSpace c = false) := by
  obtain ⟨hne, htrim, -⟩ := h
  have := edges_of_trimList_eq_self (goTrimSpace_eq_self_iff.mp htrim)
  exact ⟨fun hnil => hne (string_eq_empty_iff.mpr hnil), this.1, this.2⟩

theorem joinBuf_data_of_ne {b l : String} (hb : b ≠ "") :
    (joinBuf b l).data = b.data ++ ' ' :: l.data := by
  unfold joinBuf
  rw [if_neg hb]
  show (b ++ " " ++ l).data = _
  rw [String.data_append, String.data_append]
  simp

theorem joinBuf_empty (l : String) : joinBuf "" l = l := rfl

theorem append_edges_stable {b l : String}
    (hb1 : b.data ≠ []) (hb2 : ∀ c ∈ b.data.head?, goIsSpace c = false)
    ( _hb3 : ∀ c ∈ b.data.getLast?, goIsSpace c = false)
    (hl1 : l.data ≠ []) ( _hl2 : ∀ c ∈ l.data.head?, goIsSpace c = false)
    (hl3 : ∀ c ∈ l.data.getLast?, goIsSpace c = false) :
    (joinBuf b l).data ≠ [] ∧
    (∀ c ∈ (joinBuf b l).data.head?, goIsSpace c = false) ∧
    (∀ c ∈ (joinBuf b l).data.getLast?, goIsSpace c = false) := by
  have hbne : b ≠ "" := fun habs => hb1 (string_eq_empty_iff.mp habs)
  rw [joinBuf_data_of_ne hbne]
  refine ⟨by simp [hb1], ?_, ?_⟩
  · rw [List.head?_append_of_ne_nil _ hb1]
    exact hb2
  · rw [List.getLast?_append_of_ne_nil _ (by simp [hl1])]
    rw [show (' ' :: l.data).getLast? = l.data.getLast? from
      List.getLast?_append_of_ne_nil [' '] hl1]
    exact hl3

/-! ## Space-joined buffers -/

theorem spaceJoin_single (l : String) : spaceJoin [l] = l := rfl

theorem spaceJoin_cons_cons (l m : String) (ls : List String) :
    spaceJoin (l :: m :: ls) = l ++ " " ++ spaceJoin (m :: ls) := rfl

theorem append_ne_empty_left {b l : String} (hb : b ≠ "") : b ++ l ≠ "" := by
  intro habs
  rw [string_eq_empty_iff, String.data_append] at habs
  have hbd : b.data ≠ [] := fun h => hb (string_eq_empty_iff.mpr h)
  simp at habs
  exact hbd habs.1

theorem foldl_joinBuf_ne (ls : List String) : ∀ b : String, b ≠ "" →
    List.foldl joinBuf b ls = spaceJoin (b :: ls) := by
  induction ls with
  | nil => intro b _; rfl
  | cons l ls ih =>
      intro b hb
      rw [List.foldl_cons]
      have hbl : joinBuf b l = b ++ " " ++ l := by unfold joinBuf; rw [if_neg hb]
      have hne : joinBuf b l ≠ "" := by
        rw [hbl]
        exact append_ne_empty_left (append_ne_empty_left hb)
      rw [ih _ hne, hbl]
      cases ls with
      | nil => rfl
      | cons m ms =>
          rw [spaceJoin_cons_cons, spaceJoin_cons_cons, spaceJoin_cons_cons]
          apply String.ext
          simp [String.data_append, List.append_assoc]

theorem foldl_joinBuf_empty {l : String} {ls : List String} (hl : l ≠ "") :
    List.foldl joinBuf "" (l :: ls) = spaceJoin (l :: ls) := by
  rw [List.foldl_cons, joinBuf_empty]
  cases ls with
  | nil => rfl
  | cons m ms => exact foldl_joinBuf_ne _ _ hl

theorem spaceJoin_stable : ∀ {lines : List String}, lines ≠ [] →
    (∀ l ∈ lines, goodLine l) →
    (spaceJoin lines).data ≠ [] ∧
    (∀ c ∈ (spaceJoin lines).data.head?, goIsSpace c = false) ∧
    (∀ c ∈ (spaceJoin lines).data.getLast?, goIsSpace c = false) := by
  intro lines
  induction lines with
  | nil => intro h _; exact absurd rfl h
  | cons l ls ih =>
      intro _ hg
      cases ls with
      | nil =>
          rw [spaceJoin_single]
          exact goodLine_edges (hg l (by simp))
      | cons m ms =>
          have hl := goodLine_edges (hg l (by simp))
          have hrest := ih (by simp) (fun x hx => hg x (by simp [hx]))
          have hlne : l ≠ "" := fun habs => hl.1 (string_eq_empty_iff.mp habs)
          have := append_edges_stable hl.1 hl.2.1 hl.2.2 hrest.1 hrest.2.1 hrest.2.2
          rw [joinBuf_data_of_ne hlne] at this
          rw [spaceJoin_cons_cons]
          have hdata : (l ++ " " ++ spaceJoin (m :: ms)).data =
              l.data ++ ' ' :: (spaceJoin (m :: ms)).data := by
            rw [String.data_append, String.data_append]; simp
          rw [hdata]
          exact this

/-! ## Steps of the shell loop -/

theorem goIsSpace_false_elim {c : Char} (h : goIsSpace c = false) :
    (c = ' ' || c = '\t') = false := by
  unfold goIsSpace at h
  cases hsp : decide (c = ' ') with
  | true => rw [decide_eq_true_eq.mp hsp] at h; simp at h
  | false =>
      cases htb : decide (c = '\t') with
      | true => rw [decide_eq_true_eq.mp htb] at h; simp at h
      | false => simp [of_decide_eq_false hsp, of_decide_eq_false htb]

theorem goTrimRightST_eq_self_of_stable {l : String}
    (hne : l ≠ "") (htrim : goTrimSpace l = l) : goTrimRightST l = l := by
  cases hlast : l.data.getLast? with
  | none => exact absurd (string_eq_empty_iff.mpr (List.getLast?_eq_none_iff.mp hlast)) hne
  | some c =>
      have hc := (edges_of_trimList_eq_self (goTrimSpace_eq_self_iff.mp htrim)).2
        c (by rw [hlast]; rfl)
      exact goTrimRightST_eq_self hlast (goIsSpace_false_elim hc)

theorem processLine_goodLine (env : Env) (st : ShellState) {l : String} (h : goodLine l) :
    processLine env st l =
      ({st with buffer := joinBuf st.buffer l},
       if warnCond (joinBuf st.buffer l) l then [Effect.limitWarn] else [], false) := by
  obtain ⟨hne, htrim, hsql, hdot, hsemi⟩ := h
  have htr : goTrimRightST l = l := goTrimRightST_eq_self_of_stable hne htrim
  have hstrip : afterSqlStrip l = l := by unfold afterSqlStrip; rw [hsql]; simp
  have hnote : sqlNoteEff l = [] := by unfold sqlNoteEff; rw [hsql]; simp
  simp only [processLine]
  rw [htrim, if_neg hne, hstrip, hnote]
  simp only [hdot, htr, hsemi, Bool.false_eq_true, if_false, List.nil_append]
  split
  · rfl
  · rfl

theorem runEvents_cons_nohalt (env : Env) (st : ShellState) (e : InEvent) (es : List InEvent)
    (h : (processEvent env st e).2.2 = false) :
    runEvents env st (e :: es) =
      ((runEvents env (processEvent env st e).1 es).1,
       (processEvent env st e).2.1 ++ (runEvents env (processEvent env st e).1 es).2.1,
       (runEvents env (processEvent env st e).1 es).2.2) := by
  simp only [runEvents]
  rw [if_neg (by rw [h]; simp)]

theorem runEvents_goodLines (env : Env) :
    ∀ (lines : List String) (st : ShellState), (∀ l ∈ lines, goodLine l) →
    (runEvents env st (lines.map InEvent.line)).1 =
      {st with buffer := List.foldl joinBuf st.buffer lines} ∧
    (runEvents env st (lines.map InEvent.line)).2.2 = false ∧
    (runEvents env st (lines.map InEvent.line)).2.1.filter Effect.isApiCall = [] := by
  intro lines
  induction lines with
  | nil =>
      intro st _
      refine ⟨?_, rfl, rfl⟩
      show st = {st with buffer := st.buffer}
      rfl
  | cons l ls ih =>
      intro st hg
      have hstep : processEvent env st (InEvent.line l) =
          ({st with buffer := joinBuf st.buffer l},
           if warnCond (joinBuf st.buffer l) l then [Effect.limitWarn] else [], false) :=
        processLine_goodLine env st (hg l (by simp))
      have ihr := ih {st with buffer := joinBuf st.buffer l} (fun x hx => hg x (by simp [hx]))
      rw [List.map_cons, runEvents_cons_nohalt env st _ _ (by rw [hstep])]
      rw [hstep]
      refine ⟨?_, ihr.2.1, ?_⟩
      · rw [ihr.1, List.foldl_cons]
      · rw [List.filter_append, ihr.2.2]
        split <;> rfl

theorem processLine_blank (env : Env) (st : ShellState)
    (hb : st.buffer ≠ "") (htrim : goTrimSpace st.buffer = st.buffer) :
    processLine env st "" = ({st with buffer := ""}, [Effect.execQuery st.buffer], false) := by
  simp only [processLine]
  rw [htrim, if_pos (show goTrimSpace "" = "" from rfl), if_pos hb, if_pos hb]

/-! ## Which inputs halt the loop -/

theorem handleUse_fst_not_halt (env : Env) (st : ShellState) (cmd : String) :
    (handleUse env st cmd).2.2 = false := by
  simp only [handleUse]
  repeat' split
  all_goals rfl

theorem handleCreateNs_not_halt (env : Env) (st : ShellState) (cmd : String) :
    (handleCreateNs env st cmd).2.2 = false := by
  simp only [handleCreateNs]
  repeat' split
  all_goals rfl

theorem handleInitNs_not_halt (env : Env) (st : ShellState) (cmd : String) :
    (handleInitNs env st cmd).2.2 = false := by
  simp only [handleInitNs]
  repeat' split
  all_goals rfl

theorem handleSchema_not_halt (st : ShellState) (cmd : String) :
    (handleSchema st cmd).2.2 = false := by
  simp only [handleSchema]
  repeat' split
  all_goals rfl

theorem handleDrop_not_halt (st : ShellState) (cmd : String) :
    (handleDrop st cmd).2.2 = false := by
  simp only [handleDrop]
  repeat' split
  all_goals rfl

set_option maxHeartbeats 2000000 in
theorem dotSwitch_not_halt_of_ne (env : Env) (st : ShellState) (line cmd : String)
    (hq : ¬((cmd = ".quit" || cmd = ".exit" || cmd = ".q") = true)) :
    (dotSwitch env st line cmd).2.2 = false := by
  unfold dotSwitch
  rw [if_neg hq]
  by_cases h1 : (cmd = ".help" || cmd = ".h") = true
  · rw [if_pos h1]
    try rfl
  · rw [if_neg h1]
    by_cases h2 : (cmd = ".examples" || cmd = ".ex") = true
    · rw [if_pos h2]
      try rfl
    · rw [if_neg h2]
      by_cases h3 : (cmd = ".clear" || cmd = ".c") = true
      · rw [if_pos h3]
        try rfl
      · rw [if_neg h3]
        by_cases h4 : (cmd = ".context" || cmd = ".ctx") = true
        · rw [if_pos h4]
          try rfl
        · rw [if_neg h4]
          by_cases h5 : cmd = ".tables"
          · rw [if_pos h5]
            try rfl
          · rw [if_neg h5]
            by_cases h6 : (cmd = ".nameservers" || cmd = ".ns") = true
            · rw [if_pos h6]
              try rfl
            · rw [if_neg h6]
              by_cases h7 : goStartsWith cmd ".use" = true
              · rw [if_pos h7]
                exact handleUse_fst_not_halt env st cmd
              · rw [if_neg h7]
                by_cases h8 : (goStartsWith cmd ".create_ns" || goStartsWith cmd ".create_nameserver") = true
                · rw [if_pos h8]
                  exact handleCreateNs_not_halt env st cmd
                · rw [if_neg h8]
                  by_cases h9 : (goStartsWith cmd ".init_ns" || goStartsWith cmd ".init_nameserver" || goStartsWith cmd ".initialize") = true
                  · rw [if_pos h9]
                    exact handleInitNs_not_halt env st cmd
                  · rw [if_neg h9]
                    by_cases h10 : goStartsWith cmd ".schema" = true
                    · rw [if_pos h10]
                      exact handleSchema_not_halt st cmd
                    · rw [if_neg h10]
                      by_cases h11 : (goStartsWith cmd ".create_table" || goStartsWith cmd ".create") = true
                      · rw [if_pos h11]
                        try rfl
                      · rw [if_neg h11]
                        by_cases h12 : (goStartsWith cmd ".drop_table" || goStartsWith cmd ".drop") = true
                        · rw [if_pos h12]
                          exact handleDrop_not_halt st cmd
                        · rw [if_neg h12]
                          by_cases h13 : (goStartsWith cmd ".alter_table" || goStartsWith cmd ".alter") = true
                          · rw [if_pos h13]
                            try rfl
                          · rw [if_neg h13]
                            try rfl

theorem dotSwitch_halt_iff (env : Env) (st : ShellState) (line cmd : String) :
    (dotSwitch env st line cmd).2.2 = true ↔
      (cmd = ".quit" ∨ cmd = ".exit" ∨ cmd = ".q") := by
  constructor
  · intro h
    by_contra hq
    have hq' : ¬((cmd = ".quit" || cmd = ".exit" || cmd = ".q") = true) := by
      intro hx
      apply hq
      simp only [Bool.or_eq_true, decide_eq_true_eq] at hx
      tauto
    rw [dotSwitch_not_halt_of_ne env st line cmd hq'] at h
    simp at h
  · intro h
    unfold dotSwitch
    rw [if_pos (show ((cmd = ".quit" || cmd = ".exit" || cmd = ".q") = true) by
      simp only [Bool.or_eq_true, decide_eq_true_eq]
      tauto)]

theorem dotDispatch_halt_iff (env : Env) (st : ShellState) (line : String) :
    (dotDispatch env st line).2.2 = true ↔
      (goToLower (goTrimSpace line) = ".quit" ∨ goToLower (goTrimSpace line) = ".exit" ∨
       goToLower (goTrimSpace line) = ".q") :=
  dotSwitch_halt_iff env st line (goToLower (goTrimSpace line))

set_option maxHeartbeats 4000000 in
theorem processLine_halt_iff (env : Env) (st : ShellState) (raw : String) :
    (processLine env st raw).2.2 = true ↔ isQuitLine raw = true := by
  simp only [processLine, isQuitLine]
  by_cases h0 : goTrimSpace raw = ""
  · rw [if_pos h0, if_pos h0]
    split <;> simp
  · rw [if_neg h0, if_neg h0]
    by_cases h1 : goStartsWith (afterSqlStrip (goTrimSpace raw)) "." = true
    · rw [if_pos h1, if_pos h1]
      have hd := dotDispatch_halt_iff env st (afterSqlStrip (goTrimSpace raw))
      constructor
      · intro hh
        have hb : (dotDispatch env st (afterSqlStrip (goTrimSpace raw))).2.2 = true := by
          by_contra hb
          rw [if_neg (by simpa using hb)] at hh
          simp at hh
        have hp := hd.mp hb
        simp only [Bool.or_eq_true, decide_eq_true_eq]
        tauto
      · intro hh
        have hp : goToLower (goTrimSpace (afterSqlStrip (goTrimSpace raw))) = ".quit" ∨
            goToLower (goTrimSpace (afterSqlStrip (goTrimSpace raw))) = ".exit" ∨
            goToLower (goTrimSpace (afterSqlStrip (goTrimSpace raw))) = ".q" := by
          simp only [Bool.or_eq_true, decide_eq_true_eq] at hh
          tauto
        rw [if_pos (hd.mpr hp)]
    · rw [if_neg h1, if_neg h1]
      constructor
      · intro hh
        exfalso
        revert hh
        split
        · simp
        · split
          · split
            · simp
            · split <;> simp
          · simp
      · intro hh
        simp at hh

theorem processEvent_halt_iff (env : Env) (st : ShellState) (e : InEvent) :
    (processEvent env st e).2.2 = true ↔ isQuitEvent e = true := by
  cases e with
  | interrupt =>
      simp only [processEvent, isQuitEvent]
      split <;> simp
  | line raw => exact processLine_halt_iff env st raw

theorem runEvents_halt_decomp (env : Env) :
    ∀ (evs : List InEvent) (st : ShellState), (runEvents env st evs).2.2 = true →
    ∃ pre raw rest, evs = pre ++ InEvent.line raw :: rest ∧ isQuitLine raw = true := by
  intro evs
  induction evs with
  | nil => intro st h; simp [runEvents] at h
  | cons e es ih =>
      intro st h
      by_cases hh : (processEvent env st e).2.2 = true
      · have := (processEvent_halt_iff env st e).mp hh
        cases e with
        | interrupt => simp [isQuitEvent] at this
        | line raw =>
            exact ⟨[], raw, es, rfl, by simpa [isQuitEvent] using this⟩
      · rw [runEvents_cons_nohalt env st e es (by simpa using hh)] at h
        obtain ⟨pre, raw, rest, hsplit, hquit⟩ := ih (processEvent env st e).1 h
        exact ⟨e :: pre, raw, rest, by rw [hsplit, List.cons_append], hquit⟩

/-! ## The semicolon dispatch path -/

theorem warnCond_false_of_semi {buf2 l : String} (he : goEndsWith l ";" = true) :
    warnCond buf2 l = false := by
  have hl : l.data.getLast? = some ';' := goEndsWith_semi_iff.mp he
  have hlne : l.data ≠ [] := by intro h; rw [h] at hl; simp at hl
  have h1 : (buf2 ++ " " ++ l).data.getLast? = some ';' := by
    rw [String.data_append, List.getLast?_append_of_ne_nil _ hlne]
    exact hl
  have h2 : (goTrimSpace (buf2 ++ " " ++ l)).data.getLast? = some ';' := by
    rw [goTrimSpace_data]
    exact (getLast?_trimList (by decide) h1).2
  have h3 : (goToUpper (goTrimSpace (buf2 ++ " " ++ l))).data.getLast? = some ';' := by
    rw [goToUpper_data, List.getLast?_map, h2]
    rfl
  have h4 : (goTrimSpace (goToUpper (goTrimSpace (buf2 ++ " " ++ l)))).data.getLast? =
      some ';' := by
    rw [goTrimSpace_data]
    exact (getLast?_trimList (by decide) h3).2
  have h5 : goEndsWith (goTrimSpace (goToUpper (goTrimSpace (buf2 ++ " " ++ l)))) "LIMIT" =
      false :=
    goEndsWith_last_char (d := 'T') h4 (by decide) (by decide)
  simp only [warnCond]
  rw [h5, Bool.and_false]

theorem processLine_semicolon (env : Env) (st : ShellState) {l : String}
    (hne : l ≠ "") (htrim : goTrimSpace l = l)
    (hsql : goStartsWith (goToLower l) "sql " = false)
    (hdot : goStartsWith l "." = false)
    (hsemi : goEndsWith l ";" = true) :
    processLine env st l =
      (if hasDanglingLimit (dispatchQuery (joinBuf st.buffer l)) then
        ({st with buffer := ""},
         [Effect.limitReject (dispatchQuery (joinBuf st.buffer l))], false)
      else if dispatchQuery (joinBuf st.buffer l) ≠ "" then
        ({st with buffer := ""},
         [Effect.execQuery (dispatchQuery (joinBuf st.buffer l))], false)
      else ({st with buffer := ""}, [], false)) := by
  have htr : goTrimRightST l = l := goTrimRightST_eq_self_of_stable hne htrim
  have hstrip : afterSqlStrip l = l := by unfold afterSqlStrip; rw [hsql]; simp
  have hnote : sqlNoteEff l = [] := by unfold sqlNoteEff; rw [hsql]; simp
  have hwarn : warnCond (joinBuf st.buffer l) l = false := warnCond_false_of_semi hsemi
  simp only [processLine]
  rw [htrim, if_neg hne, hstrip, hnote]
  simp only [hdot, Bool.false_eq_true, if_false, hwarn, htr, hsemi, if_true, List.nil_append]

/-! ## Quote stripping facts -/

theorem strOf_data (c : Char) : (strOf c).data = [c] := rfl

theorem quote_not_space {c : Char} (hc : c = dqChar ∨ c = sqChar) : goIsSpace c = false := by
  rcases hc with rfl | rfl <;> decide

theorem string_mk_data (s : String) : (⟨s.data⟩ : String) = s := String.ext rfl

theorem quoted_data (c : Char) (q : String) :
    (strOf c ++ q ++ strOf c ++ ";").data = c :: (q.data ++ [c, ';']) := by
  rw [String.data_append, String.data_append, String.data_append]
  simp [strOf]

theorem quoted_getLast? (c : Char) (q : String) :
    (strOf c ++ q ++ strOf c ++ ";").data.getLast? = some ';' := by
  rw [quoted_data]
  rw [show c :: (q.data ++ [c, ';']) = (c :: q.data ++ [c]) ++ [';'] by simp]
  exact List.getLast?_concat _

theorem quoted_head? (c : Char) (q : String) :
    (strOf c ++ q ++ strOf c ++ ";").data.head? = some c := by
  rw [quoted_data]; rfl

theorem quoted_trim (c : Char) (q : String) (hc : c = dqChar ∨ c = sqChar) :
    goTrimSpace (strOf c ++ q ++ strOf c ++ ";") = strOf c ++ q ++ strOf c ++ ";" := by
  apply goTrimSpace_eq_self_iff.mpr
  apply trimList_eq_self_of_edges
  · intro x hx
    rw [quoted_head? c q] at hx
    obtain rfl : c = x := by simpa using hx
    exact quote_not_space hc
  · intro x hx
    rw [quoted_getLast? c q] at hx
    obtain rfl : (';' : Char) = x := by simpa using hx
    decide

theorem inner_trim (c : Char) (q : String) (hc : c = dqChar ∨ c = sqChar) :
    trimList (c :: (q.data ++ [c])) = c :: (q.data ++ [c]) := by
  apply trimList_eq_self_of_edges
  · intro x hx
    obtain rfl : c = x := by simpa using hx
    exact quote_not_space hc
  · intro x hx
    rw [show (c :: (q.data ++ [c])).getLast? = some c by
      rw [show c :: (q.data ++ [c]) = (c :: q.data) ++ [c] by simp]
      exact List.getLast?_concat _] at hx
    obtain rfl : c = x := by simpa using hx
    exact quote_not_space hc

theorem data_mk (l : List Char) : (⟨l⟩ : String).data = l := rfl

theorem stripQuotes_wrap (c : Char) (l : List Char) (hc : c = dqChar ∨ c = sqChar) :
    stripQuotes ⟨c :: (l ++ [c])⟩ = ⟨l⟩ := by
  have hlast : (c :: (l ++ [c])).getLastD ' ' = c := by
    rw [show c :: (l ++ [c]) = (c :: l) ++ [c] by simp]
    exact List.getLastD_concat _ _ _
  unfold stripQuotes
  simp only [data_mk]
  rw [if_pos ?side]
  case side =>
    have hlast2 : (c :: (l ++ [c])).getLast?.getD ' ' = c := by
      rw [← List.getLastD_eq_getLast?]; exact hlast
    rcases hc with rfl | rfl <;> simp [hlast2, List.headD_cons]
  rw [List.drop_one, List.tail_cons, List.dropLast_concat]

theorem dispatchQuery_single_quoted (c : Char) (q : String)
    (hc : c = dqChar ∨ c = sqChar) :
    dispatchQuery (strOf c ++ q ++ strOf c ++ ";") = q := by
  unfold dispatchQuery
  rw [quoted_trim c q hc]
  have hsemi : goEndsWith (strOf c ++ q ++ strOf c ++ ";") ";" = true :=
    goEndsWith_semi_iff.mpr (quoted_getLast? c q)
  unfold trimSuffixSemi
  rw [if_pos hsemi]
  have hdrop : (strOf c ++ q ++ strOf c ++ ";").data.dropLast = c :: (q.data ++ [c]) := by
    rw [quoted_data]
    rw [show c :: (q.data ++ [c, ';']) = (c :: q.data ++ [c]) ++ [';'] by simp]
    rw [List.dropLast_concat]
    simp
  rw [hdrop]
  have htrim2 : goTrimSpace (⟨c :: (q.data ++ [c])⟩ : String) = ⟨c :: (q.data ++ [c])⟩ := by
    apply goTrimSpace_eq_self_iff.mpr
    exact inner_trim c q hc
  rw [htrim2, stripQuotes_wrap c q.data hc, string_mk_data]

theorem double_quoted_shape (c : Char) (q : String) :
    (strOf c ++ strOf c ++ q ++ strOf c ++ strOf c ++ ";") =
      strOf c ++ (strOf c ++ q ++ strOf c) ++ strOf c ++ ";" := by
  apply String.ext
  simp [String.data_append, strOf]

theorem inner_quoted_data (c : Char) (q : String) :
    (strOf c ++ q ++ strOf c).data = c :: (q.data ++ [c]) := by
  rw [String.data_append, String.data_append]
  simp [strOf]

theorem dispatchQuery_double_quoted (c : Char) (q : String)
    (hc : c = dqChar ∨ c = sqChar) :
    dispatchQuery (strOf c ++ strOf c ++ q ++ strOf c ++ strOf c ++ ";") =
      strOf c ++ q ++ strOf c := by
  rw [double_quoted_shape, dispatchQuery_single_quoted c (strOf c ++ q ++ strOf c) hc]

theorem inner_quoted_getLast? (c : Char) (q : String) :
    (strOf c ++ q ++ strOf c).data.getLast? = some c := by
  rw [inner_quoted_data]
  rw [show c :: (q.data ++ [c]) = (c :: q.data) ++ [c] by simp]
  exact List.getLast?_concat _

theorem toUpper_quote {c : Char} (hc : c = dqChar ∨ c = sqChar) : Char.toUpper c = c := by
  rcases hc with rfl | rfl <;> decide

theorem hasDanglingLimit_quote_end (c : Char) (q : String)
    (hc : c = dqChar ∨ c = sqChar) :
    hasDanglingLimit (strOf c ++ q ++ strOf c) = false := by
  have h1 : (goToUpper (strOf c ++ q ++ strOf c)).data.getLast? = some c := by
    rw [goToUpper_data, List.getLast?_map, inner_quoted_getLast?]
    simp [toUpper_quote hc]
  have h2 : (goTrimSpace (goToUpper (strOf c ++ q ++ strOf c))).data.getLast? = some c := by
    rw [goTrimSpace_data]
    exact (getLast?_trimList (quote_not_space hc) h1).2
  have h3 : goEndsWith (goTrimSpace (goToUpper (strOf c ++ q ++ strOf c))) "LIMIT" = false := by
    refine goEndsWith_last_char (d := 'T') h2 (by decide) ?_
    rcases hc with rfl | rfl <;> decide
  simp only [hasDanglingLimit]
  rw [h3, Bool.and_false]

theorem quoted_ne_empty (c : Char) (q : String) :
    strOf c ++ q ++ strOf c ++ ";" ≠ "" := by
  intro h
  rw [string_eq_empty_iff, quoted_data] at h
  simp at h

theorem quoted_not_sql (c : Char) (q : String) (hc : c = dqChar ∨ c = sqChar) :
    goStartsWith (goToLower (strOf c ++ q ++ strOf c ++ ";")) "sql " = false := by
  have hlow : c.toLower = c := by rcases hc with rfl | rfl <;> decide
  have hh : (goToLower (strOf c ++ q ++ strOf c ++ ";")).data.head? = some c := by
    rw [goToLower_data, quoted_data]
    simp [hlow]
  refine goStartsWith_head_char (d := 's') hh (by decide) ?_
  rcases hc with rfl | rfl <;> decide

theorem quoted_not_dot (c : Char) (q : String) (hc : c = dqChar ∨ c = sqChar) :
    goStartsWith (strOf c ++ q ++ strOf c ++ ";") "." = false := by
  refine goStartsWith_head_char (d := '.') (quoted_head? c q) (by decide) ?_
  rcases hc with rfl | rfl <;> decide

theorem quoted_ends_semi (c : Char) (q : String) :
    goEndsWith (strOf c ++ q ++ strOf c ++ ";") ";" = true :=
  goEndsWith_semi_iff.mpr (quoted_getLast? c q)

set_option maxHeartbeats 2000000 in
theorem dotSwitch_default (env : Env) (st : ShellState) (line cmd : String)
    (h : knownDotCmd cmd = false) :
    dotSwitch env st line cmd = (st, [Effect.unknownCmd line], false) := by
  unfold dotSwitch
  rw [if_neg (show ¬((cmd = ".quit" || cmd = ".exit" || cmd = ".q") = true) by
    intro hx
    simp only [Bool.or_eq_true, decide_eq_true_eq] at hx
    rcases hx with (rfl | rfl) | rfl <;> exact absurd h (by decide)
    )]
  rw [if_neg (show ¬((cmd = ".help" || cmd = ".h") = true) by
    intro hx
    simp only [Bool.or_eq_true, decide_eq_true_eq] at hx
    rcases hx with rfl | rfl <;> exact absurd h (by decide)
    )]
  rw [if_neg (show ¬((cmd = ".examples" || cmd = ".ex") = true) by
    intro hx
    simp only [Bool.or_eq_true, decide_eq_true_eq] at hx
    rcases hx with rfl | rfl <;> exact absurd h (by decide)
    )]
  rw [if_neg (show ¬((cmd = ".clear" || cmd = ".c") = true) by
    intro hx
    simp only [Bool.or_eq_true, decide_eq_true_eq] at hx
    rcases hx with rfl | rfl <;> exact absurd h (by decide)
    )]
  rw [if_neg (show ¬((cmd = ".context" || cmd = ".ctx") = true) by
    intro hx
    simp only [Bool.or_eq_true, decide_eq_true_eq] at hx
    rcases hx with rfl | rfl <;> exact absurd h (by decide)
    )]
  rw [if_neg (show ¬(cmd = ".tables") by
    intro hx
    exact absurd h (by rw [hx]; decide)
    )]
  rw [if_neg (show ¬((cmd = ".nameservers" || cmd = ".ns") = true) by
    intro hx
    simp only [Bool.or_eq_true, decide_eq_true_eq] at hx
    rcases hx with rfl | rfl <;> exact absurd h (by decide)
    )]
  rw [if_neg (show ¬(goStartsWith cmd ".use" = true) by
    intro hx
    exact absurd h (by unfold knownDotCmd; simp [hx])
    )]
  rw [if_neg (show ¬((goStartsWith cmd ".create_ns" || goStartsWith cmd ".create_nameserver") = true) by
    intro hx
    simp only [Bool.or_eq_true] at hx
    rcases hx with hx1 | hx1 <;> exact absurd h (by unfold knownDotCmd; simp [hx1])
    )]
  rw [if_neg (show ¬((goStartsWith cmd ".init_ns" || goStartsWith cmd ".init_nameserver" || goStartsWith cmd ".initialize") = true) by
    intro hx
    simp only [Bool.or_eq_true] at hx
    rcases hx with (hx1 | hx1) | hx1 <;> exact absurd h (by unfold knownDotCmd; simp [hx1])
    )]
  rw [if_neg (show ¬(goStartsWith cmd ".schema" = true) by
    intro hx
    exact absurd h (by unfold knownDotCmd; simp [hx])
    )]
  rw [if_neg (show ¬((goStartsWith cmd ".create_table" || goStartsWith cmd ".create") = true) by
    intro hx
    simp only [Bool.or_eq_true] at hx
    rcases hx with hx1 | hx1 <;> exact absurd h (by unfold knownDotCmd; simp [hx1])
    )]
  rw [if_neg (show ¬((goStartsWith cmd ".drop_table" || goStartsWith cmd ".drop") = true) by
    intro hx
    simp only [Bool.or_eq_true] at hx
    rcases hx with hx1 | hx1 <;> exact absurd h (by unfold knownDotCmd; simp [hx1])
    )]
  rw [if_neg (show ¬((goStartsWith cmd ".alter_table" || goStartsWith cmd ".alter") = true) by
    intro hx
    simp only [Bool.or_eq_true] at hx
    rcases hx with hx1 | hx1 <;> exact absurd h (by unfold knownDotCmd; simp [hx1])
    )]

/-! ## Lower-casing and field splitting for `.use` -/

theorem char_toNat_ofNat {n : Nat} (h : n.isValidChar) : (Char.ofNat n).toNat = n := by
  unfold Char.ofNat
  rw [dif_pos h]
  rfl

theorem toLower_nonspace {c : Char} (h : goIsSpace c = false) :
    goIsSpace (Char.toLower c) = false := by
  unfold Char.toLower
  show goIsSpace (if c.toNat ≥ 65 ∧ c.toNat ≤ 90 then Char.ofNat (c.toNat + 32) else c) = false
  by_cases hup : c.toNat ≥ 65 ∧ c.toNat ≤ 90
  · rw [if_pos hup]
    obtain ⟨hu1, hu2⟩ := hup
    have hv : (c.toNat + 32).isValidChar := Or.inl (by omega)
    have ht : (Char.ofNat (c.toNat + 32)).toNat = c.toNat + 32 := char_toNat_ofNat hv
    have key : ∀ d : Char, d.toNat < 97 → Char.ofNat (c.toNat + 32) ≠ d := by
      intro d hd he
      rw [← he, ht] at hd
      omega
    simp [goIsSpace, key ' ' (by decide), key '\t' (by decide), key '\n' (by decide),
      key (Char.ofNat 11) (by decide), key (Char.ofNat 12) (by decide),
      key '\r' (by decide)]
  · rw [if_neg hup]
    exact h

theorem goToLower_append (s t : String) :
    goToLower (s ++ t) = goToLower s ++ goToLower t := by
  apply String.ext
  simp [goToLower_data, String.data_append]

theorem fields_word {w : List Char} :
    (∀ c ∈ w, goIsSpace c = false) → w ≠ [] →
    ∀ acc : List Char, goFieldsAux w acc = [⟨acc.reverse ++ w⟩] := by
  induction w with
  | nil => intro _ hne; exact absurd rfl hne
  | cons c rest ih =>
      intro h _ acc
      unfold goFieldsAux
      rw [h c (by simp)]
      simp only [Bool.false_eq_true, if_false]
      cases hr : rest with
      | nil =>
          unfold goFieldsAux
          rw [if_neg (by simp)]
          simp
      | cons d tl =>
          rw [← hr, ih (fun x hx => h x (by simp [hx])) (by rw [hr]; simp) (c :: acc)]
          simp

theorem fields_use (arg : String) (hw : ∀ c ∈ arg.data, goIsSpace c = false)
    (hne : arg ≠ "") : goFields (".use " ++ arg) = [".use", arg] := by
  unfold goFields
  rw [String.data_append]
  show goFieldsAux ('.' :: 'u' :: 's' :: 'e' :: ' ' :: arg.data) [] = _
  simp +decide only [goFieldsAux]
  rw [fields_word hw (fun habs => hne (string_eq_empty_iff.mpr habs)) []]
  simp [string_mk_data]

set_option maxHeartbeats 2000000 in
theorem dotSwitch_use (env : Env) (st : ShellState) (line arg : String) :
    dotSwitch env st line (".use " ++ arg) = handleUse env st (".use " ++ arg) := by
  have hdata : (".use " ++ arg).data = '.' :: 'u' :: 's' :: 'e' :: ' ' :: arg.data := by
    rw [String.data_append]; rfl
  unfold dotSwitch
  rw [if_neg (show ¬(((".use " ++ arg) = ".quit" || (".use " ++ arg) = ".exit" || (".use " ++ arg) = ".q") = true) by
    intro hx
    simp only [Bool.or_eq_true, decide_eq_true_eq] at hx
    rcases hx with (hx | hx) | hx <;>
      (have hd := congrArg String.data hx; rw [hdata] at hd; simp +decide at hd)
    )]
  rw [if_neg (show ¬(((".use " ++ arg) = ".help" || (".use " ++ arg) = ".h") = true) by
    intro hx
    simp only [Bool.or_eq_true, decide_eq_true_eq] at hx
    rcases hx with hx | hx <;>
      (have hd := congrArg String.data hx; rw [hdata] at hd; simp +decide at hd)
    )]
  rw [if_neg (show ¬(((".use " ++ arg) = ".examples" || (".use " ++ arg) = ".ex") = true) by
    intro hx
    simp only [Bool.or_eq_true, decide_eq_true_eq] at hx
    rcases hx with hx | hx <;>
      (have hd := congrArg String.data hx; rw [hdata] at hd; simp +decide at hd)
    )]
  rw [if_neg (show ¬(((".use " ++ arg) = ".clear" || (".use " ++ arg) = ".c") = true) by
    intro hx
    simp only [Bool.or_eq_true, decide_eq_true_eq] at hx
    rcases hx with hx | hx <;>
      (have hd := congrArg String.data hx; rw [hdata] at hd; simp +decide at hd)
    )]
  rw [if_neg (show ¬(((".use " ++ arg) = ".context" || (".use " ++ arg) = ".ctx") = true) by
    intro hx
    simp only [Bool.or_eq_true, decide_eq_true_eq] at hx
    rcases hx with hx | hx <;>
      (have hd := congrArg String.data hx; rw [hdata] at hd; simp +decide at hd)
    )]
  rw [if_neg (show ¬((".use " ++ arg) = ".tables") by
    intro hx
    have hd := congrArg String.data hx
    rw [hdata] at hd
    simp +decide at hd
    )]
  rw [if_neg (show ¬(((".use " ++ arg) = ".nameservers" || (".use " ++ arg) = ".ns") = true) by
    intro hx
    simp only [Bool.or_eq_true, decide_eq_true_eq] at hx
    rcases hx with hx | hx <;>
      (have hd := congrArg String.data hx; rw [hdata] at hd; simp +decide at hd)
    )]
  rw [if_pos (show goStartsWith (".use " ++ arg) ".use" = true by
    unfold goStartsWith
    rw [hdata]
    simp +decide [List.isPrefixOf_cons₂, List.isPrefixOf_nil_left]
    )]

set_option maxHeartbeats 2000000 in
theorem processLine_use (env : Env) (st : ShellState) (name : String) (dbs : List Database)
    (henv : env.listDatabases = Except.ok dbs)
    (hw : ∀ c ∈ name.data, goIsSpace c = false) (hne : name ≠ "") :
    processLine env st (".use " ++ name) =
      (match dbs.find? (fun db =>
          db.databaseName == goToLower name || db.id == goToLower name) with
       | none => ({st with buffer := ""},
                  [Effect.apiListDatabases, Effect.useNotFound (goToLower name)], false)
       | some db =>
           ({st with
              buffer := ""
              nameserverID := db.id
              nameserverName := db.databaseName},
            [Effect.apiListDatabases,
             Effect.useSwitched db.id db.databaseName], false)) := by
  have hdata : (".use " ++ name).data = '.' :: 'u' :: 's' :: 'e' :: ' ' :: name.data := by
    rw [String.data_append]; rfl
  have hnn : name.data ≠ [] := fun habs => hne (string_eq_empty_iff.mpr habs)
  have hlast : ∀ c ∈ (".use " ++ name).data.getLast?, goIsSpace c = false := by
    rw [hdata, show ('.' :: 'u' :: 's' :: 'e' :: ' ' :: name.data) =
      ['.', 'u', 's', 'e', ' '] ++ name.data from rfl,
      List.getLast?_append_of_ne_nil _ hnn]
    intro c hc
    cases hl : name.data.getLast? with
    | none => rw [hl] at hc; simp at hc
    | some d =>
        rw [hl] at hc
        obtain rfl : d = c := by simpa using hc
        obtain ⟨ys, hys⟩ := List.getLast?_eq_some_iff.mp hl
        exact hw d (by rw [hys]; simp)
  have htrim : goTrimSpace (".use " ++ name) = ".use " ++ name := by
    apply goTrimSpace_eq_self_iff.mpr
    apply trimList_eq_self_of_edges
    · rw [hdata]
      intro c hc
      obtain rfl : '.' = c := by simpa using hc
      decide
    · exact hlast
  have hldata : (goToLower (".use " ++ name)).data.head? = some '.' := by
    rw [goToLower_data, hdata]; rfl
  have hsql : goStartsWith (goToLower (".use " ++ name)) "sql " = false :=
    goStartsWith_head_char (d := 's') hldata (by decide) (by decide)
  have hdot : goStartsWith (".use " ++ name) "." = true := by
    unfold goStartsWith
    rw [hdata]
    simp +decide [List.isPrefixOf_cons₂, List.isPrefixOf_nil_left]
  have hlow : goToLower (".use " ++ name) = ".use " ++ goToLower name := by
    rw [goToLower_append]
    have : goToLower ".use " = ".use " := by decide
    rw [this]
  have hstrip : afterSqlStrip (".use " ++ name) = ".use " ++ name := by
    unfold afterSqlStrip; rw [hsql]; simp
  have hnote : sqlNoteEff (".use " ++ name) = [] := by
    unfold sqlNoteEff; rw [hsql]; simp
  have hdd : dotDispatch env st (".use " ++ name) =
      handleUse env st (".use " ++ goToLower name) := by
    unfold dotDispatch
    rw [htrim, hlow, dotSwitch_use]
  have hlw : ∀ c ∈ (goToLower name).data, goIsSpace c = false := by
    rw [goToLower_data]
    intro c hc
    obtain ⟨d, hd, rfl⟩ := List.mem_map.mp hc
    exact toLower_nonspace (hw d hd)
  have hlne : goToLower name ≠ "" := by
    intro habs
    rw [string_eq_empty_iff, goToLower_data] at habs
    simp at habs
    exact hnn habs
  have huse : handleUse env st (".use " ++ goToLower name) =
      (match dbs.find? (fun db =>
          db.databaseName == goToLower name || db.id == goToLower name) with
       | none => (st, [Effect.apiListDatabases, Effect.useNotFound (goToLower name)], false)
       | some db => ({st with nameserverID := db.id, nameserverName := db.databaseName},
                     [Effect.apiListDatabases,
                      Effect.useSwitched db.id db.databaseName], false)) := by
    unfold handleUse
    rw [fields_use _ hlw hlne, henv]
    simp only [List.length_cons, List.length_nil]
    rw [if_pos (by omega)]
    rfl
  simp only [processLine]
  rw [htrim, if_neg (show ¬(".use " ++ name) = "" from by
    rw [string_eq_empty_iff, hdata]; simp)]
  rw [hstrip, hnote, if_pos hdot, hdd, huse]
  cases hfind : dbs.find? (fun db =>
      db.databaseName == goToLower name || db.id == goToLower name) with
  | none => simp
  | some db => simp

theorem processLine_unknown_dot (env : Env) (st : ShellState) (raw : String)
    (htrim : goTrimSpace raw = raw) (hdot : goStartsWith raw "." = true)
    (hk : knownDotCmd (goToLower raw) = false) :
    processLine env st raw = ({st with buffer := ""}, [Effect.unknownCmd raw], false) := by
  have hne : raw ≠ "" := by
    intro habs
    subst habs
    exact absurd hdot (by decide)
  have hhead : raw.data.head? = some '.' := by
    unfold goStartsWith at hdot
    cases hd : raw.data with
    | nil => rw [hd] at hdot; exact absurd hdot (by decide)
    | cons a t =>
        rw [hd, show (".".data) = ['.'] from rfl, List.isPrefixOf_cons₂] at hdot
        have ha : '.' = a := beq_iff_eq.mp ((Bool.and_eq_true _ _).mp hdot).1
        rw [← ha]
        rfl
  have hlhead : (goToLower raw).data.head? = some '.' := by
    obtain ⟨ys, hys⟩ := List.head?_eq_some_iff.mp hhead
    rw [goToLower_data, hys]
    rfl
  have hsql : goStartsWith (goToLower raw) "sql " = false :=
    goStartsWith_head_char (d := 's') hlhead (by decide) (by decide)
  have hstrip : afterSqlStrip raw = raw := by
    unfold afterSqlStrip; rw [hsql]; simp
  have hnote : sqlNoteEff raw = [] := by
    unfold sqlNoteEff; rw [hsql]; simp
  have hdd : dotDispatch env st raw = (st, [Effect.unknownCmd raw], false) := by
    unfold dotDispatch
    rw [htrim]
    exact dotSwitch_default env st raw (goToLower raw) hk
  simp only [processLine]
  rw [htrim, if_neg hne, hstrip, hnote, if_pos hdot, hdd]
  simp

theorem runEvents_append (env : Env) (es2 : List InEvent) :
    ∀ (es1 : List InEvent) (st : ShellState), (runEvents env st es1).2.2 = false →
    runEvents env st (es1 ++ es2) =
      ((runEvents env (runEvents env st es1).1 es2).1,
       (runEvents env st es1).2.1 ++ (runEvents env (runEvents env st es1).1 es2).2.1,
       (runEvents env (runEvents env st es1).1 es2).2.2) := by
  intro es1
  induction es1 with
  | nil => intro st _; simp [runEvents]
  | cons e es ih =>
      intro st h
      have hh : (processEvent env st e).2.2 = false := by
        by_contra hb
        have hb' : (processEvent env st e).2.2 = true := by simpa using hb
        simp only [runEvents, hb', if_true] at h
        exact absurd h (by simp)
      rw [runEvents_cons_nohalt env st e es hh] at h
      rw [List.cons_append, runEvents_cons_nohalt env st e (es ++ es2) hh,
          runEvents_cons_nohalt env st e es hh]
      rw [ih (processEvent env st e).1 h]
      simp [List.append_assoc]

/-! ## The token poller -/

theorem pollLoop_count_le (o : Nat → PollOutcome) :
    ∀ (fuel count : Nat), (pollLoop o fuel count).2 ≤ count + fuel := by
  intro fuel
  induction fuel with
  | zero => intro count; simp [pollLoop]
  | succ f ih =>
      intro count
      simp only [pollLoop]
      cases hs : pollStep (count + 1) (o count) with
      | some r =>
          show count + 1 ≤ count + (f + 1)
          omega
      | none =>
          have := ih (count + 1)
          simpa [Nat.add_assoc, Nat.add_comm, Nat.add_left_comm] using this

theorem pollLoop_early (o : Nat → PollOutcome) :
    ∀ (k fuel count : Nat) (r : PollResult), k < fuel →
    (∀ j, j < k → pollStep (count + j + 1) (o (count + j)) = none) →
    pollStep (count + k + 1) (o (count + k)) = some r →
    pollLoop o fuel count = (r, count + k + 1) := by
  intro k
  induction k with
  | zero =>
      intro fuel count r hf _ hs
      cases fuel with
      | zero => omega
      | succ f =>
          simp only [pollLoop]
          simp only [Nat.add_zero] at hs
          rw [hs]
  | succ k ih =>
      intro fuel count r hf hnone hs
      cases fuel with
      | zero => omega
      | succ f =>
          simp only [pollLoop]
          have h0 : pollStep (count + 1) (o count) = none := by
            have := hnone 0 (by omega)
            simpa using this
          rw [h0]
          have harg : ∀ j, j < k → pollStep (count + 1 + j + 1) (o (count + 1 + j)) = none := by
            intro j hj
            have := hnone (j + 1) (by omega)
            have he : count + (j + 1) = count + 1 + j := by omega
            rw [he] at this
            exact this
          have hs' : pollStep (count + 1 + k + 1) (o (count + 1 + k)) = some r := by
            have he : count + (k + 1) = count + 1 + k := by omega
            rw [he] at hs
            exact hs
          rw [ih f (count + 1) r (by omega) harg hs']
          have he2 : count + 1 + k + 1 = count + (k + 1) + 1 := by omega
          rw [he2]

/-! ## The scatter-gather listing -/

theorem foldl_set_get_of_not_mem (f : Nat → ServerWithCount) :
    ∀ (order : List Nat) (init : List ServerWithCount) (j : Nat), j ∉ order →
    (order.foldl (fun acc i => acc.set i (f i)) init)[j]? = init[j]? := by
  intro order
  induction order with
  | nil => intro init j _; rfl
  | cons i rest ih =>
      intro init j hj
      rw [List.foldl_cons, ih (init.set i (f i)) j (fun hm => hj (by simp [hm]))]
      rw [List.getElem?_set]
      rw [if_neg (fun he => hj (by simp [he]))]

theorem foldl_set_length (f : Nat → ServerWithCount) :
    ∀ (order : List Nat) (init : List ServerWithCount),
    (order.foldl (fun acc i => acc.set i (f i)) init).length = init.length := by
  intro order
  induction order with
  | nil => intro init; rfl
  | cons i rest ih =>
      intro init
      rw [List.foldl_cons, ih, List.length_set]

theorem foldl_set_get_of_mem (f : Nat → ServerWithCount) :
    ∀ (order : List Nat) (init : List ServerWithCount) (j : Nat), j ∈ order →
    j < init.length →
    (order.foldl (fun acc i => acc.set i (f i)) init)[j]? = some (f j) := by
  intro order
  induction order with
  | nil => intro init j hj _; simp at hj
  | cons i rest ih =>
      intro init j hj hlen
      rw [List.foldl_cons]
      by_cases hm : j ∈ rest
      · exact ih (init.set i (f i)) j hm (by rw [List.length_set]; exact hlen)
      · have hji : j = i := by
          rcases List.mem_cons.mp hj with h | h
          · exact h
          · exact absurd h hm
        subst hji
        rw [foldl_set_get_of_not_mem f rest _ j hm]
        rw [List.getElem?_set, if_pos rfl, if_pos hlen]

theorem gatherResult_eq (servers : List Server)
    (fetch : Nat → Except String (List Database)) (order : List Nat)
    (hperm : order.Perm (List.range servers.length)) :
    gatherResult servers fetch order =
      (List.range servers.length).map (slotValue servers fetch) := by
  apply List.ext_getElem?
  intro j
  unfold gatherResult
  by_cases hj : j < servers.length
  · rw [foldl_set_get_of_mem _ order _ j
      (hperm.mem_iff.mpr (List.mem_range.mpr hj)) (by simp [hj])]
    have h1 : ((List.range servers.length).map (slotValue servers fetch))[j]? =
        some (slotValue servers fetch j) := by
      rw [List.getElem?_eq_getElem (by simp [hj])]
      simp
    rw [h1]
  · rw [foldl_set_get_of_not_mem (slotValue servers fetch) order _ j
      (fun hm => hj (List.mem_range.mp (hperm.mem_iff.mp hm)))]
    rw [List.getElem?_eq_none (by simp; omega), List.getElem?_eq_none (by simp; omega)]

/-! ## Final helpers -/

theorem execsOf_nil_of_no_api {l : List Effect}
    (h : l.filter Effect.isApiCall = []) : execsOf l = [] := by
  induction l with
  | nil => rfl
  | cons e rest ih =>
      rw [List.filter_cons] at h
      cases he : e.isApiCall with
      | true => rw [he] at h; simp at h
      | false =>
          rw [he] at h
          simp only [Bool.false_eq_true, if_false] at h
          have hrest := ih h
          unfold execsOf at hrest ⊢
          rw [List.filterMap_cons]
          cases e <;> simp_all [Effect.isApiCall]

theorem decode_empty_success (body : JVal) (r : QueryResponse)
    (h : decodeQueryResponse body = Except.ok r)
    (hc : r.Columns = []) (hr : r.Rows = []) :
    r.Success = true := by
  cases body with
  | jnull => simp [decodeQueryResponse] at h
  | jbool b => simp [decodeQueryResponse] at h
  | jnum n => simp [decodeQueryResponse] at h
  | jstr s => simp [decodeQueryResponse] at h
  | jarr xs => simp [decodeQueryResponse] at h
  | jobj fields =>
      simp only [decodeQueryResponse] at h
      injection h with h2
      subst h2
      dsimp only at hc hr ⊢
      rw [hc, hr]
      simp

/-! # Claim theorems -/

/-- Claim C1: the interactive shell's read loop terminates only on the
`.quit`/`.exit`/`.q` meta-commands.  An input event that is not one of
those commands (interrupt signals and all other lines included) never
halts the loop, and whenever a run of the loop halted, the input stream
contains a line whose normalized form is one of the three quit commands
at the point where the run stopped. -/
theorem C1_shell_quit_only_termination :
    (∀ (env : Env) (st : ShellState) (e : InEvent), isQuitEvent e = false →
      (processEvent env st e).2.2 = false) ∧
    (∀ (env : Env) (st : ShellState) (evs : List InEvent),
      (runEvents env st evs).2.2 = true →
      ∃ pre raw rest, evs = pre ++ InEvent.line raw :: rest ∧ isQuitLine raw = true) := by
  constructor
  · intro env st e he
    by_contra hb
    have hq : isQuitEvent e = true :=
      (processEvent_halt_iff env st e).mp (by simpa using hb)
    rw [hq] at he
    exact absurd he (by simp)
  · exact fun env st evs h => runEvents_halt_decomp env evs st h

/-- Witness for C1 at a concrete non-quit line and a concrete quitting
stream. -/
theorem C1_witness :
    (processEvent env0 st0 (InEvent.line "select 1")).2.2 = false ∧
    (∃ pre raw rest, [InEvent.line ".quit"] = pre ++ InEvent.line raw :: rest ∧
      isQuitLine raw = true) :=
  ⟨C1_shell_quit_only_termination.1 env0 st0 _ (by decide),
   C1_shell_quit_only_termination.2 env0 st0 [InEvent.line ".quit"] (by decide)⟩

/-- Claim C5 counterexample: an unknown dot-command does not leave the
pending query buffer unchanged — typing `.bogus` while `select 1` is
pending clears the buffer (shell.go line 718 resets the buffer after
every meta-command, the unknown arm included). -/
theorem C5_counterexample :
    (runEvents env0 st0 [InEvent.line "select 1"]).1.buffer = "select 1" ∧
    (runEvents env0 st0 [InEvent.line "select 1", InEvent.line ".bogus"]).1.buffer = "" ∧
    (runEvents env0 st0 [InEvent.line "select 1", InEvent.line ".bogus"]).2.1 =
      [Effect.unknownCmd ".bogus"] := by
  decide

/-- Claim C5 (amended): an input line starting with `.` that matches no
known meta-command prints an unknown-command message, leaves the shell
context (server and nameserver fields) unchanged, does not end the loop,
and resets the pending query buffer to empty — as every dot-command
does. -/
theorem C5_unknown_dot_amended (env : Env) (st : ShellState) (raw : String)
    (htrim : goTrimSpace raw = raw) (hdot : goStartsWith raw "." = true)
    (hk : knownDotCmd (goToLower raw) = false) :
    processLine env st raw = ({st with buffer := ""}, [Effect.unknownCmd raw], false) :=
  processLine_unknown_dot env st raw htrim hdot hk

/-- Witness for the amended C5 at the concrete line `.bogus`. -/
theorem C5_witness :
    processLine env0 {st0 with buffer := "pending"} ".bogus" =
      ({st0 with buffer := ""}, [Effect.unknownCmd ".bogus"], false) :=
  C5_unknown_dot_amended env0 {st0 with buffer := "pending"} ".bogus"
    (by decide) (by decide) (by decide)

/-- Claim C6 counterexample: the shell lower-cases the whole `.use`
command line, so a nameserver stored as `MyDB` is NOT found even when the
user types its name with the exact stored case. -/
theorem C6_counterexample :
    (runEvents ⟨Except.ok [⟨"ID9", "MyDB", true⟩]⟩ st0 [InEvent.line ".use MyDB"]).2.1 =
      [Effect.apiListDatabases, Effect.useNotFound "mydb"] ∧
    (runEvents ⟨Except.ok [⟨"ID9", "MyDB", true⟩]⟩ st0
      [InEvent.line ".use MyDB"]).1.nameserverName = "" := by
  decide

/-- Claim C6 (amended): `.use <name>` looks the argument up in the API's
live list after lower-casing the whole command line, comparing the stored
name and ID against the lower-cased argument with case-sensitive
equality; on a match only the context's nameserver ID and name change
(plus the buffer reset every dot-command performs), and typing a stored
name in its exact case succeeds precisely when that name is unchanged by
lower-casing. -/
theorem C6_use_lookup_amended (env : Env) (st : ShellState) (name : String)
    (dbs : List Database) (henv : env.listDatabases = Except.ok dbs)
    (hw : ∀ c ∈ name.data, goIsSpace c = false) (hne : name ≠ "") :
    processLine env st (".use " ++ name) =
      (match dbs.find? (fun db =>
          db.databaseName == goToLower name || db.id == goToLower name) with
       | none => ({st with buffer := ""},
                  [Effect.apiListDatabases, Effect.useNotFound (goToLower name)], false)
       | some db =>
           ({st with
              buffer := ""
              nameserverID := db.id
              nameserverName := db.databaseName},
            [Effect.apiListDatabases,
             Effect.useSwitched db.id db.databaseName], false)) ∧
    (∀ db ∈ dbs, db.databaseName = name → goToLower db.databaseName = db.databaseName →
      (dbs.find? (fun db =>
        db.databaseName == goToLower name || db.id == goToLower name)).isSome = true) := by
  refine ⟨processLine_use env st name dbs henv hw hne, ?_⟩
  intro db hdb h1 h2
  cases hf : dbs.find? (fun db =>
      db.databaseName == goToLower name || db.id == goToLower name) with
  | some _ => rfl
  | none =>
      exfalso
      apply List.find?_eq_none.mp hf db hdb
      subst h1
      rw [h2]
      simp

/-- Witness for the amended C6: an all-lowercase stored name typed exactly
is found and switches the context. -/
theorem C6_witness :
    processLine ⟨Except.ok [⟨"id9", "mydb", true⟩]⟩ st0 (".use " ++ "mydb") =
      ({st0 with buffer := "", nameserverID := "id9", nameserverName := "mydb"},
       [Effect.apiListDatabases, Effect.useSwitched "id9" "mydb"], false) := by
  have h := (C6_use_lookup_amended ⟨Except.ok [⟨"id9", "mydb", true⟩]⟩ st0 "mydb"
    [⟨"id9", "mydb", true⟩] rfl (by decide) (by decide)).1
  rw [h]
  decide

/-- Claim C7: a query response decoded with zero columns (and zero rows,
as in the example `columns: [], rows: [], rowsAffected: 3`) is rendered
with no table: the renderer reports the execution time and the
rows-affected count. -/
theorem C7_zero_columns_mutation_report (body : JVal) (r : QueryResponse)
    (h : decodeQueryResponse body = Except.ok r)
    (hc : r.Columns = []) (hr : r.Rows = []) :
    renderResult r = [ROut.execSuccess r.ExecutionTime, ROut.rowsAffected r.RowsAffected] := by
  have hs : r.Success = true := decode_empty_success body r h hc hr
  unfold renderResult
  rw [hs, hc, hr]
  simp

/-- Witness for C7 at the example response. -/
theorem C7_witness :
    decodeQueryResponse (JVal.jobj [("columns", JVal.jarr []), ("rows", JVal.jarr []), ("rowsAffected", JVal.jnum 3)]) = Except.ok { Columns := [], Rows := [], RowsAffected := 3, ExecutionTime := 0, Success := true, ErrorMessage := "" } ∧
    renderResult { Columns := [], Rows := [], RowsAffected := 3, ExecutionTime := 0, Success := true, ErrorMessage := "" } = [ROut.execSuccess 0, ROut.rowsAffected 3] :=
  ⟨rfl, C7_zero_columns_mutation_report
    (JVal.jobj [("columns", JVal.jarr []), ("rows", JVal.jarr []), ("rowsAffected", JVal.jnum 3)])
    { Columns := [], Rows := [], RowsAffected := 3, ExecutionTime := 0, Success := true, ErrorMessage := "" } rfl rfl rfl⟩

/-- Claim C10: an HTTP-200 query response whose decoded columns and rows
are both empty always decodes with `Success = true` — even when the body
carried `success: false` or a non-empty `errorMessage` — and the renderer
never reports such a response as an error. -/
theorem C10_empty_result_forced_success (body : JVal) (r : QueryResponse)
    (h : decodeQueryResponse body = Except.ok r)
    (hc : r.Columns = []) (hr : r.Rows = []) :
    r.Success = true ∧ ∀ o ∈ renderResult r, o.isErrorLine = false := by
  have hs : r.Success = true := decode_empty_success body r h hc hr
  refine ⟨hs, ?_⟩
  unfold renderResult
  rw [hs, hc, hr]
  intro o ho
  simp at ho
  rcases ho with rfl | rfl <;> rfl

/-- Witness for C10 at a body that carries `success: false` and an error
message yet decodes as a success. -/
theorem C10_witness :
    ({ Columns := [], Rows := [], RowsAffected := 0, ExecutionTime := 0, Success := true, ErrorMessage := "boom" } : QueryResponse).Success = true ∧
    ∀ o ∈ renderResult { Columns := [], Rows := [], RowsAffected := 0, ExecutionTime := 0, Success := true, ErrorMessage := "boom" }, o.isErrorLine = false :=
  C10_empty_result_forced_success
    (JVal.jobj [("success", JVal.jbool false), ("errorMessage", JVal.jstr "boom"), ("columns", JVal.jarr []), ("rows", JVal.jarr [])])
    { Columns := [], Rows := [], RowsAffected := 0, ExecutionTime := 0, Success := true, ErrorMessage := "boom" } rfl rfl rfl

/-- Claim C8: the device-code polling loop issues at most 120 token
requests; an `authorization_pending` attempt continues the loop, an
`access_denied` attempt ends it with a failure, a token ends it with the
token, a success (or terminal error) after k pending attempts stops the
loop at request k+1, and a run that exhausts all 120 attempts returns the
user-facing timeout result. -/
theorem C8_poll_loop_bounds :
    (∀ o : Nat → PollOutcome, (pollForToken o).2 ≤ 120) ∧
    (∀ n, pollStep n (PollOutcome.apiErr "authorization_pending") = none) ∧
    (∀ n, pollStep n (PollOutcome.apiErr "access_denied") = some PollResult.denied) ∧
    (∀ n t, pollStep n (PollOutcome.token t) = some (PollResult.token t)) ∧
    (∀ (o : Nat → PollOutcome) (k : Nat) (r : PollResult), k < 120 →
      (∀ j, j < k → pollStep (j + 1) (o j) = none) →
      pollStep (k + 1) (o k) = some r → pollForToken o = (r, k + 1)) ∧
    pollForToken (fun _ => PollOutcome.apiErr "authorization_pending") =
      (PollResult.timeout, 120) := by
  refine ⟨?_, fun n => rfl, fun n => rfl, fun n t => rfl, ?_, ?_⟩
  · intro o
    have := pollLoop_count_le o 120 0
    simpa using this
  · intro o k r hk hnone hs
    have := pollLoop_early o k 120 0 r hk
      (by intro j hj; have := hnone j hj; simpa using this)
      (by simpa using hs)
    simpa using this
  · rfl

/-- Witness for C8: an immediate token ends the loop at request 1. -/
theorem C8_witness :
    pollForToken (fun _ => PollOutcome.token "tok") = (PollResult.token "tok", 1) :=
  C8_poll_loop_bounds.2.2.2.2.1 (fun _ => PollOutcome.token "tok") 0 (PollResult.token "tok")
    (by omega) (fun j hj => absurd hj (by omega)) rfl

/-- Claim C9: the server listing spawns exactly one count fetch per
server; whatever order the fetches complete in (any permutation of the
indices), each writes only its own slot, so the joined result equals the
canonical per-index list, and the rendered table has exactly one row per
server in the original listing order. -/
theorem C9_scatter_gather (servers : List Server)
    (fetch : Nat → Except String (List Database)) (order : List Nat)
    (hperm : order.Perm (List.range servers.length)) :
    (spawnedFetches servers).length = servers.length ∧
    gatherResult servers fetch order =
      (List.range servers.length).map (slotValue servers fetch) ∧
    (renderServerTable (gatherResult servers fetch order)).length = servers.length := by
  refine ⟨by simp [spawnedFetches], gatherResult_eq servers fetch order hperm, ?_⟩
  rw [gatherResult_eq servers fetch order hperm]
  simp [renderServerTable]

/-- Witness for C9 with two servers and the fetches completing in reverse
order. -/
theorem C9_witness :
    gatherResult [⟨"s1", "a", "", "2024-01-01", true⟩, ⟨"s2", "b", "", "2024-01-02", true⟩]
        (fun i => if i = 0 then Except.ok [⟨"x", "n", true⟩] else Except.ok []) [1, 0] =
      (List.range 2).map (slotValue
        [⟨"s1", "a", "", "2024-01-01", true⟩, ⟨"s2", "b", "", "2024-01-02", true⟩]
        (fun i => if i = 0 then Except.ok [⟨"x", "n", true⟩] else Except.ok [])) :=
  (C9_scatter_gather _ _ [1, 0] (by decide)).2.1

/-- Claim C2 counterexample: a line beginning with the case-insensitive
prefix `sql ` satisfies the claim's preconditions (it does not start with
`.` and does not end in `;`), yet the shell strips the prefix before
accumulating, so the executed query is NOT the space-joined concatenation
of the input lines. -/
theorem C2_counterexample :
    execsOf (runEvents env0 st0 [InEvent.line "sql select 1", InEvent.line ""]).2.1 =
      ["select 1"] ∧
    execsOf (runEvents env0 st0 [InEvent.line "sql select 1", InEvent.line ""]).2.1 ≠
      [spaceJoin ["sql select 1"]] := by
  decide

/-- Claim C2 (amended): for every non-empty sequence of (trimmed,
non-empty) input lines that do not start with `.`, do not start with the
case-insensitive prefix `sql `, and do not end in `;`, followed by a
blank line, the shell executes exactly the space-joined concatenation of
the lines, and the pending query buffer is empty afterward. -/
theorem C2_accumulator_exec_amended (env : Env) (st : ShellState) (lines : List String)
    (hb : st.buffer = "") (hne : lines ≠ []) (hg : ∀ l ∈ lines, goodLine l) :
    execsOf (runEvents env st (lines.map InEvent.line ++ [InEvent.line ""])).2.1 =
      [spaceJoin lines] ∧
    (runEvents env st (lines.map InEvent.line ++ [InEvent.line ""])).1.buffer = "" ∧
    (runEvents env st (lines.map InEvent.line ++ [InEvent.line ""])).2.2 = false := by
  have hacc := runEvents_goodLines env lines st hg
  have hbuf : (runEvents env st (lines.map InEvent.line)).1.buffer = spaceJoin lines := by
    rw [hacc.1]
    show List.foldl joinBuf st.buffer lines = _
    rw [hb]
    cases lines with
    | nil => exact absurd rfl hne
    | cons l ls => exact foldl_joinBuf_empty (hg l (by simp)).1
  have hstable := spaceJoin_stable hne hg
  rw [runEvents_append env [InEvent.line ""] (lines.map InEvent.line) st hacc.2.1]
  have hS1trim : goTrimSpace (runEvents env st (lines.map InEvent.line)).1.buffer =
      (runEvents env st (lines.map InEvent.line)).1.buffer := by
    rw [hbuf]
    exact goTrimSpace_eq_self_iff.mpr (trimList_eq_self_of_edges hstable.2.1 hstable.2.2)
  have hS1ne : (runEvents env st (lines.map InEvent.line)).1.buffer ≠ "" := by
    rw [hbuf]
    intro habs
    exact hstable.1 (string_eq_empty_iff.mp habs)
  have hstep : processEvent env (runEvents env st (lines.map InEvent.line)).1
      (InEvent.line "") =
      ({(runEvents env st (lines.map InEvent.line)).1 with buffer := ""},
       [Effect.execQuery (runEvents env st (lines.map InEvent.line)).1.buffer], false) :=
    processLine_blank env _ hS1ne hS1trim
  have hrun1 : runEvents env (runEvents env st (lines.map InEvent.line)).1
      [InEvent.line ""] =
      ({(runEvents env st (lines.map InEvent.line)).1 with buffer := ""},
       [Effect.execQuery (runEvents env st (lines.map InEvent.line)).1.buffer], false) := by
    rw [runEvents_cons_nohalt env _ _ [] (by rw [hstep]), hstep]
    rfl
  rw [hrun1]
  refine ⟨?_, rfl, rfl⟩
  show execsOf ((runEvents env st (lines.map InEvent.line)).2.1 ++
    [Effect.execQuery (runEvents env st (lines.map InEvent.line)).1.buffer]) = _
  unfold execsOf
  rw [List.filterMap_append]
  have h0 : execsOf (runEvents env st (lines.map InEvent.line)).2.1 = [] :=
    execsOf_nil_of_no_api hacc.2.2
  unfold execsOf at h0
  rw [h0, hbuf]
  rfl

/-- Witness for the amended C2 at a concrete two-line statement. -/
theorem C2_witness :
    execsOf (runEvents env0 st0 [InEvent.line "select a", InEvent.line "from t",
      InEvent.line ""]).2.1 = [spaceJoin ["select a", "from t"]] ∧
    (runEvents env0 st0 [InEvent.line "select a", InEvent.line "from t",
      InEvent.line ""]).1.buffer = "" :=
  ⟨(C2_accumulator_exec_amended env0 st0 ["select a", "from t"] rfl (by decide)
      (by decide)).1,
   (C2_accumulator_exec_amended env0 st0 ["select a", "from t"] rfl (by decide)
      (by decide)).2.1⟩

/-- Claim C3 counterexample: a statement ending in a dangling `LIMIT`
completed by a BLANK LINE is not rejected locally — the shell sends it to
the remote API (the incomplete-LIMIT check only runs on the semicolon
path, shell.go lines 759-770). -/
theorem C3_counterexample :
    (runEvents env0 st0 [InEvent.line "select * from t limit",
      InEvent.line ""]).2.1.filter Effect.isApiCall =
      [Effect.execQuery "select * from t limit"] ∧
    Effect.limitReject "select * from t limit" ∉
      (runEvents env0 st0 [InEvent.line "select * from t limit", InEvent.line ""]).2.1 := by
  decide

/-- Claim C3 (amended): a completed statement whose normalized form ends
in `LIMIT` with no numeric argument is rejected locally — with an
incomplete-LIMIT error, no API call, and the buffer reset — when the
statement is completed by a semicolon; blank-line completion dispatches
the statement to the API without this check. -/
theorem C3_dangling_limit_reject_amended (env : Env) (st : ShellState)
    (init : List String) (lastL : String)
    (hb : st.buffer = "") (hg : ∀ l ∈ init, goodLine l)
    (h1 : lastL ≠ "") (h2 : goTrimSpace lastL = lastL)
    (h3 : goStartsWith (goToLower lastL) "sql " = false)
    (h4 : goStartsWith lastL "." = false)
    (h5 : goEndsWith lastL ";" = true)
    (hdl : hasDanglingLimit
      (dispatchQuery (joinBuf (List.foldl joinBuf "" init) lastL)) = true) :
    (runEvents env st ((init ++ [lastL]).map InEvent.line)).2.1.filter
      Effect.isApiCall = [] ∧
    Effect.limitReject (dispatchQuery (joinBuf (List.foldl joinBuf "" init) lastL)) ∈
      (runEvents env st ((init ++ [lastL]).map InEvent.line)).2.1 ∧
    (runEvents env st ((init ++ [lastL]).map InEvent.line)).1.buffer = "" ∧
    (runEvents env st ((init ++ [lastL]).map InEvent.line)).2.2 = false := by
  have hacc := runEvents_goodLines env init st hg
  rw [List.map_append]
  simp only [List.map_cons, List.map_nil]
  rw [runEvents_append env [InEvent.line lastL] (init.map InEvent.line) st hacc.2.1]
  have hbuf : (runEvents env st (init.map InEvent.line)).1.buffer =
      List.foldl joinBuf "" init := by
    rw [hacc.1]
    show List.foldl joinBuf st.buffer init = _
    rw [hb]
  have hstep : processEvent env (runEvents env st (init.map InEvent.line)).1
      (InEvent.line lastL) =
      ({(runEvents env st (init.map InEvent.line)).1 with buffer := ""},
       [Effect.limitReject
         (dispatchQuery (joinBuf (List.foldl joinBuf "" init) lastL))], false) := by
    show processLine env _ lastL = _
    rw [processLine_semicolon env _ h1 h2 h3 h4 h5, hbuf, if_pos hdl]
  have hrun1 : runEvents env (runEvents env st (init.map InEvent.line)).1
      [InEvent.line lastL] =
      ({(runEvents env st (init.map InEvent.line)).1 with buffer := ""},
       [Effect.limitReject
         (dispatchQuery (joinBuf (List.foldl joinBuf "" init) lastL))], false) := by
    rw [runEvents_cons_nohalt env _ _ [] (by rw [hstep]), hstep]
    rfl
  rw [hrun1]
  refine ⟨?_, by simp, rfl, rfl⟩
  rw [List.filter_append, hacc.2.2]
  rfl

/-- Witness for the amended C3 at a concrete dangling-LIMIT statement. -/
theorem C3_witness :
    (runEvents env0 st0 [InEvent.line "select * from t limit;"]).2.1.filter
      Effect.isApiCall = [] ∧
    Effect.limitReject (dispatchQuery (joinBuf (List.foldl joinBuf "" [])
      "select * from t limit;")) ∈
      (runEvents env0 st0 [InEvent.line "select * from t limit;"]).2.1 :=
  ⟨(C3_dangling_limit_reject_amended env0 st0 [] "select * from t limit;" rfl
      (by decide) (by decide) (by decide) (by decide) (by decide) (by decide)
      (by decide)).1,
   (C3_dangling_limit_reject_amended env0 st0 [] "select * from t limit;" rfl
      (by decide) (by decide) (by decide) (by decide) (by decide) (by decide)
      (by decide)).2.1⟩

/-- Claim C4 counterexample: a quote-wrapped statement completed by a
BLANK LINE is dispatched verbatim, quotes included — the quote-stripping
only happens on the semicolon path (shell.go lines 744-757). -/
theorem C4_counterexample :
    execsOf (runEvents env0 st0 [InEvent.line (strOf sqChar ++ "select 1" ++ strOf sqChar),
      InEvent.line ""]).2.1 = [strOf sqChar ++ "select 1" ++ strOf sqChar] ∧
    strOf sqChar ++ "select 1" ++ strOf sqChar ≠ "select 1" := by
  decide

/-- One semicolon-completed quote-wrapped statement executes its unwrapped
form (helper for the amended C4). -/
theorem runEvents_quoted_semicolon (env : Env) (st : ShellState) (c : Char) (q : String)
    (hb : st.buffer = "") (hc : c = dqChar ∨ c = sqChar) (hq : q ≠ "")
    (hdl : hasDanglingLimit q = false) :
    runEvents env st [InEvent.line (strOf c ++ q ++ strOf c ++ ";")] =
      ({st with buffer := ""}, [Effect.execQuery q], false) := by
  have hstep : processEvent env st (InEvent.line (strOf c ++ q ++ strOf c ++ ";")) =
      ({st with buffer := ""}, [Effect.execQuery q], false) := by
    show processLine env st _ = _
    rw [processLine_semicolon env st (quoted_ne_empty c q) (quoted_trim c q hc)
      (quoted_not_sql c q hc) (quoted_not_dot c q hc) (quoted_ends_semi c q)]
    rw [hb, joinBuf_empty, dispatchQuery_single_quoted c q hc]
    rw [if_neg (by rw [hdl]; simp), if_pos hq]
  rw [runEvents_cons_nohalt env st _ [] (by rw [hstep]), hstep]
  rfl

/-- Claim C4 (amended): for statements completed by a SEMICOLON, after
semicolon stripping and whitespace trimming a statement wrapped in a
single matching pair of double- or single-quotes is dispatched with
exactly one layer of quoting stripped, and a statement wrapped in two
layers is dispatched with exactly one layer remaining; a statement
completed by a blank line is dispatched unmodified. -/
theorem C4_quote_strip_amended (env : Env) (st : ShellState) (c : Char) (q : String)
    (hb : st.buffer = "") (hc : c = dqChar ∨ c = sqChar) (hq : q ≠ "")
    (hdl : hasDanglingLimit q = false) :
    execsOf (runEvents env st [InEvent.line (strOf c ++ q ++ strOf c ++ ";")]).2.1 =
      [q] ∧
    execsOf (runEvents env st
      [InEvent.line (strOf c ++ strOf c ++ q ++ strOf c ++ strOf c ++ ";")]).2.1 =
      [strOf c ++ q ++ strOf c] := by
  constructor
  · rw [runEvents_quoted_semicolon env st c q hb hc hq hdl]
    rfl
  · rw [double_quoted_shape]
    rw [runEvents_quoted_semicolon env st c (strOf c ++ q ++ strOf c) hb hc
      (by intro habs; rw [string_eq_empty_iff, inner_quoted_data] at habs; simp at habs)
      (hasDanglingLimit_quote_end c q hc)]
    rfl

/-- Witness for the amended C4 at a concrete single- and double-wrapped
statement. -/
theorem C4_witness :
    execsOf (runEvents env0 st0
      [InEvent.line (strOf sqChar ++ "select 1" ++ strOf sqChar ++ ";")]).2.1 =
      ["select 1"] ∧
    execsOf (runEvents env0 st0
      [InEvent.line (strOf sqChar ++ strOf sqChar ++ "select 1" ++ strOf sqChar ++
        strOf sqChar ++ ";")]).2.1 = [strOf sqChar ++ "select 1" ++ strOf sqChar] :=
  ⟨(C4_quote_strip_amended env0 st0 sqChar "select 1" rfl (Or.inr rfl) (by decide)
      (by decide)).1,
   (C4_quote_strip_amended env0 st0 sqChar "select 1" rfl (Or.inr rfl) (by decide)
      (by decide)).2⟩

end FluxRelay
